import Mathlib

/-! # 1Panel: registry trust-list rewrite, docker restart polling, startup status sweep

A shallow embedding of

* `ImageRepoService.handleRegistries` and the polling loop of
  `ImageRepoService.Create` (`backend/app/service/image_repo.go`),
* `handleSnapStatus` (`agent/init/hook/hook.go`),

followed by the properties proved about them.
-/

namespace OnePanel

/-! ## JSON values as `encoding/json` decodes them into `interface{}` -/

/-- A decoded JSON value: `nil`, `bool`, `float64` (every finite float is a
rational, and Go compares floats by value), `string`, `[]interface{}` and
`map[string]interface{}`. -/
inductive JVal where
  | null
  | bool (b : Bool)
  | num (q : Rat)
  | str (s : String)
  | arr (l : List JVal)
  | obj (kvs : List (String × JVal))

mutual
def JVal.decEq : (a b : JVal) → Decidable (a = b)
  | .null, .null => isTrue rfl
  | .bool a, .bool b => if h : a = b then isTrue (by rw [h]) else isFalse (by intro e; cases e; exact h rfl)
  | .num a, .num b => if h : a = b then isTrue (by rw [h]) else isFalse (by intro e; cases e; exact h rfl)
  | .str a, .str b => if h : a = b then isTrue (by rw [h]) else isFalse (by intro e; cases e; exact h rfl)
  | .arr a, .arr b => match JVal.decEqList a b with
     | isTrue h => isTrue (by rw [h])
     | isFalse h => isFalse (by intro e; cases e; exact h rfl)
  | .obj a, .obj b => match JVal.decEqObj a b with
     | isTrue h => isTrue (by rw [h])
     | isFalse h => isFalse (by intro e; cases e; exact h rfl)
  | .null, .bool _ => isFalse (by intro e; cases e)
  | .null, .num _ => isFalse (by intro e; cases e)
  | .null, .str _ => isFalse (by intro e; cases e)
  | .null, .arr _ => isFalse (by intro e; cases e)
  | .null, .obj _ => isFalse (by intro e; cases e)
  | .bool _, .null => isFalse (by intro e; cases e)
  | .bool _, .num _ => isFalse (by intro e; cases e)
  | .bool _, .str _ => isFalse (by intro e; cases e)
  | .bool _, .arr _ => isFalse (by intro e; cases e)
  | .bool _, .obj _ => isFalse (by intro e; cases e)
  | .num _, .null => isFalse (by intro e; cases e)
  | .num _, .bool _ => isFalse (by intro e; cases e)
  | .num _, .str _ => isFalse (by intro e; cases e)
  | .num _, .arr _ => isFalse (by intro e; cases e)
  | .num _, .obj _ => isFalse (by intro e; cases e)
  | .str _, .null => isFalse (by intro e; cases e)
  | .str _, .bool _ => isFalse (by intro e; cases e)
  | .str _, .num _ => isFalse (by intro e; cases e)
  | .str _, .arr _ => isFalse (by intro e; cases e)
  | .str _, .obj _ => isFalse (by intro e; cases e)
  | .arr _, .null => isFalse (by intro e; cases e)
  | .arr _, .bool _ => isFalse (by intro e; cases e)
  | .arr _, .num _ => isFalse (by intro e; cases e)
  | .arr _, .str _ => isFalse (by intro e; cases e)
  | .arr _, .obj _ => isFalse (by intro e; cases e)
  | .obj _, .null => isFalse (by intro e; cases e)
  | .obj _, .bool _ => isFalse (by intro e; cases e)
  | .obj _, .num _ => isFalse (by intro e; cases e)
  | .obj _, .str _ => isFalse (by intro e; cases e)
  | .obj _, .arr _ => isFalse (by intro e; cases e)
def JVal.decEqList : (a b : List JVal) → Decidable (a = b)
  | [], [] => isTrue rfl
  | [], _ :: _ => isFalse (by intro e; cases e)
  | _ :: _, [] => isFalse (by intro e; cases e)
  | x :: xs, y :: ys => match JVal.decEq x y, JVal.decEqList xs ys with
     | isTrue h, isTrue h2 => isTrue (by rw [h, h2])
     | isFalse h, _ => isFalse (by intro e; cases e; exact h rfl)
     | _, isFalse h => isFalse (by intro e; cases e; exact h rfl)
def JVal.decEqObj : (a b : List (String × JVal)) → Decidable (a = b)
  | [], [] => isTrue rfl
  | [], _ :: _ => isFalse (by intro e; cases e)
  | _ :: _, [] => isFalse (by intro e; cases e)
  | (k, x) :: xs, (k2, y) :: ys =>
     if hk : k = k2 then
     match JVal.decEq x y, JVal.decEqObj xs ys with
     | isTrue h, isTrue h2 => isTrue (by rw [hk, h, h2])
     | isFalse h, _ => isFalse (by intro e; cases e; exact h rfl)
     | _, isFalse h => isFalse (by intro e; cases e; exact h rfl)
     else isFalse (by intro e; cases e; exact hk rfl)
end

instance : DecidableEq JVal := JVal.decEq

/-- The Go comparison `regi == delHost` of an `interface{}` with a `string`:
true exactly when the dynamic type is `string` and the values agree. -/
def JVal.eqString : JVal → String → Bool
  | .str s, t => decide (s = t)
  | _, _ => false

/-! ## Go maps with string keys -/

/-- A Go `map[string]V`, kept as an association list with distinct keys. -/
abbrev GoMap (V : Type) := List (String × V)

/-- The read `m[k]`. -/
def GoMap.get {V : Type} (m : GoMap V) (k : String) : Option V :=
  match m with
  | [] => none
  | (k1, v) :: rest => if k1 = k then some v else GoMap.get rest k

/-- The builtin `delete(m, k)`. -/
def GoMap.delete {V : Type} (m : GoMap V) (k : String) : GoMap V :=
  m.filter (fun p => decide (p.1 ≠ k))

/-- The assignment `m[k] = v`. -/
def GoMap.set {V : Type} (m : GoMap V) (k : String) (v : V) : GoMap V :=
  GoMap.delete m k ++ [(k, v)]

/-- The builtin `len(m)`. -/
def GoMap.len {V : Type} (m : GoMap V) : Nat := m.length

/-- The keys of a map are pairwise distinct. -/
def GoMap.WF {V : Type} (m : GoMap V) : Prop := (m.map Prod.fst).Nodup

/-! ## `handleRegistries` -/

/-- A Go run-time panic: `slice bounds out of range [low:high]`, or
`assignment to entry in nil map`. -/
inductive GoPanic where
  | sliceBounds (low high : Nat)
  | nilMapAssign
  deriving DecidableEq

/-- The map `daemonMap` after `json.Unmarshal(file, &daemonMap)` returned no
error: `some m` for a JSON object, `none` for the nil map that the document
`null` leaves (the map made by `make` is reset to nil). -/
abbrev Document := Option (GoMap JVal)

/-- The read `daemonMap[k]`; a nil map has no entry. -/
def Document.get (d : Document) (k : String) : Option JVal :=
  match d with
  | none => none
  | some m => GoMap.get m k

/-- The builtin `delete(daemonMap, k)`; on a nil map it does nothing. -/
def Document.delete (d : Document) (k : String) : Document :=
  match d with
  | none => none
  | some m => some (GoMap.delete m k)

/-- The assignment `daemonMap[k] = v`; on a nil map it panics. -/
def Document.set (d : Document) (k : String) (v : JVal) : Except GoPanic Document :=
  match d with
  | none => .error .nilMapAssign
  | some m => .ok (some (GoMap.set m k v))

/-- Modelled from the spec: `common.RemoveRepeatElement` is not among the
sources; it returns its input with the later repeats of an element dropped and
the order kept. -/
def RemoveRepeatElement : List JVal → List JVal
  | [] => []
  | x :: xs => x :: (RemoveRepeatElement xs).filter (fun y => decide (y ≠ x))

/-- The backing array after `append(registries[:i], registries[i+1:]...)` on a
slice of length `m`: the cells `i+1 .. m-1` move one place down, in place, and
the cells from `m-1` on keep what they held. -/
def removeAt (a : List JVal) (m i : Nat) : List JVal :=
  a.take i ++ ((a.drop (i + 1)).take (m - (i + 1)) ++ a.drop (m - 1))

/-- The loop `for i, regi := range registries { if regi == delHost { registries
= append(registries[:i], registries[i+1:]...) } }`. The range runs over the
original length (`todo` iterations are left, `i` is the index), `regi` is read
from the shared backing array `a`, and `m` is the current length of
`registries`. `registries[i+1:]` panics when `i+1 > m`. -/
def removeLoop (delHost : String) : Nat → Nat → List JVal → Nat → Except GoPanic (List JVal × Nat)
  | 0, _, a, m => .ok (a, m)
  | todo + 1, i, a, m =>
    match a[i]? with
    | some regi =>
      if regi.eqString delHost then
        if i + 1 ≤ m then removeLoop delHost todo (i + 1) (removeAt a m i) (m - 1)
        else .error (.sliceBounds (i + 1) m)
      else removeLoop delHost todo (i + 1) a m
    | none => removeLoop delHost todo (i + 1) a m

/-- The removal loop run on a slice `registries`, giving the slice it leaves. -/
def removeHost (delHost : String) (registries : List JVal) : Except GoPanic (List JVal) :=
  match removeLoop delHost registries.length 0 registries registries.length with
  | .ok (a, m) => .ok (a.take m)
  | .error e => .error e

/-- The type assertion `registries, _ := iRegistries.([]interface{})`. -/
def asRegistries : Option JVal → List JVal
  | some (.arr l) => l
  | _ => []

/-- The `switch handle` of `handleRegistries`. -/
def switchHandle (registries : List JVal) (newHost delHost handle : String) :
    Except GoPanic (List JVal) :=
  if handle = "create" then
    .ok (RemoveRepeatElement (registries ++ [.str newHost]))
  else if handle = "update" then
    match removeHost delHost registries with
    | .ok r => .ok (RemoveRepeatElement (r ++ [.str newHost]))
    | .error e => .error e
  else if handle = "delete" then
    removeHost delHost registries
  else .ok registries

/-- `ImageRepoService.handleRegistries` from the parsed `daemonMap` (nil when
the file holds `null`) to the document handed to `json.MarshalIndent` and
written back; a panic writes nothing. -/
def handleRegistries (daemonMap : Document) (newHost delHost handle : String) :
    Except GoPanic Document :=
  match switchHandle (asRegistries (Document.get daemonMap "insecure-registries"))
      newHost delHost handle with
  | .ok registries =>
    if registries.length = 0 then .ok (Document.delete daemonMap "insecure-registries")
    else Document.set daemonMap "insecure-registries" (.arr registries)
  | .error e => .error e

/-! ## The polling loop of `ImageRepoService.Create` -/

/-- What `cmd.Exec("systemctl is-active docker")` returns: the output and the
error (`none` for `nil`). -/
structure ExecResult where
  stdout : String
  err : Option String
  deriving DecidableEq

/-- The test `string(stdout) == "active\n" && err == nil`. -/
def isActive (r : ExecResult) : Bool :=
  decide (r.stdout = "active\n") && r.err.isNone

/-- The period of `time.NewTicker(3 * time.Second)`, in seconds. -/
def tickInterval : Nat := 3

/-- The budget of `context.WithTimeout(context.Background(), time.Second*20)`,
in seconds. -/
def pollTimeout : Nat := 20

/-- How the polling loop ended: the error it returned (`none` for `nil`), the
times in seconds at which it queried the service state, and the time of the
tick at which it returned. -/
structure PollOutcome where
  err : Option String
  polls : List Nat
  returnedAt : Nat
  deriving DecidableEq

/-- The loop `for range ticker.C { select { case <-ctx.Done(): ...; default: ... } }`
on a clock where tick `k` (`k = 1, 2, ...`) fires at `tickInterval * k` seconds
after the start and a query returns before the next tick. `exec n` is what the
`n`-th query (counted from 0) answers, `polled` holds the times of the queries
made so far. At a tick at or after the deadline `ctx.Done()` is ready and the
loop returns the error; before the deadline the `default` branch queries the
service and returns `nil` on "active". The first argument bounds the number of
ticks looked at; `none` means it was used up. -/
def pollLoop (exec : Nat → ExecResult) : Nat → Nat → List Nat → Option PollOutcome
  | 0, _, _ => none
  | fuel + 1, k, polled =>
    if pollTimeout ≤ tickInterval * k then
      some ⟨some "the docker service cannot be restarted", polled, tickInterval * k⟩
    else if isActive (exec polled.length) then
      some ⟨none, polled ++ [tickInterval * k], tickInterval * k⟩
    else pollLoop exec fuel (k + 1) (polled ++ [tickInterval * k])

/-- The polling loop from its start: the first tick, no query made yet. -/
def createPoll (exec : Nat → ExecResult) (fuel : Nat) : Option PollOutcome :=
  pollLoop exec fuel 1 []

/-! ## `handleSnapStatus` -/

/-- Modelled from the spec: `constant.StatusWaiting` (package `constant` is not
among the sources), the transient state `Waiting`. -/
abbrev StatusWaiting : String := "Waiting"

/-- Modelled from the spec: `constant.StatusRunning`, the transient state
`Running`. -/
abbrev StatusRunning : String := "Running"

/-- Modelled from the spec: `constant.StatusUploading`, the transient state
`Uploading`. -/
abbrev StatusUploading : String := "Uploading"

/-- Modelled from the spec: `constant.StatusSuccess`, the terminal state
`Success`. -/
abbrev StatusSuccess : String := "Success"

/-- Modelled from the spec: `constant.StatusFailed`, the terminal state
`Failed`. -/
abbrev StatusFailed : String := "Failed"

/-- The local `msgFailed` of `handleSnapStatus`. -/
abbrev msgFailed : String := "the task was interrupted due to the restart of the 1panel service"

/-- Modelled from the spec: the snapshot record (`model.Snapshot` and the status
item of `GetStatusList` are not among the sources): one row per job with an
overall status, recover and rollback status, their messages, and the eight
phase fields. -/
structure Snapshot where
  id : Nat
  status : String
  message : String
  recoverStatus : String
  recoverMessage : String
  rollbackStatus : String
  rollbackMessage : String
  panel : String
  panelInfo : String
  daemonJson : String
  appData : String
  panelData : String
  backupData : String
  compress : String
  upload : String
  deriving DecidableEq

/-- One row under the first bulk update: `Where("status = ?", "OnSaveData")`
sets `status` to `StatusSuccess`. -/
def rowOnSaveData (r : Snapshot) : Snapshot :=
  if r.status = "OnSaveData" then { r with status := StatusSuccess } else r

/-- One row under the second bulk update: `Where("status = ?", StatusWaiting)`
sets `status` and `message`. -/
def rowStatus (r : Snapshot) : Snapshot :=
  if r.status = StatusWaiting then { r with status := StatusFailed, message := msgFailed } else r

/-- One row under the third bulk update: `Where("recover_status = ?",
StatusWaiting)` sets `recover_status` and `recover_message`. -/
def rowRecover (r : Snapshot) : Snapshot :=
  if r.recoverStatus = StatusWaiting then
    { r with recoverStatus := StatusFailed, recoverMessage := msgFailed }
  else r

/-- One row under the fourth bulk update: `Where("rollback_status = ?",
StatusWaiting)` sets `rollback_status` and `rollback_message`. -/
def rowRollback (r : Snapshot) : Snapshot :=
  if r.rollbackStatus = StatusWaiting then
    { r with rollbackStatus := StatusFailed, rollbackMessage := msgFailed }
  else r

/-- The four bulk updates of `handleSnapStatus`, in order, every one
succeeding. -/
def bulkPass (db : List Snapshot) : List Snapshot :=
  let db := db.map rowOnSaveData
  let db := db.map rowStatus
  let db := db.map rowRecover
  let db := db.map rowRollback
  db

/-- The map `updates` that the loop body of `handleSnapStatus` builds for one
status item. -/
def buildUpdates (item : Snapshot) : GoMap String :=
  let updates : GoMap String := []
  let updates := if item.panel = StatusRunning then updates.set "panel" StatusFailed else updates
  let updates :=
    if item.panelInfo = StatusRunning then updates.set "panel_info" StatusFailed else updates
  let updates :=
    if item.daemonJson = StatusRunning then updates.set "daemon_json" StatusFailed else updates
  let updates :=
    if item.appData = StatusRunning then updates.set "app_data" StatusFailed else updates
  let updates :=
    if item.panelData = StatusRunning then updates.set "panel_data" StatusFailed else updates
  let updates :=
    if item.backupData = StatusRunning then updates.set "backup_data" StatusFailed else updates
  let updates :=
    if item.compress = StatusRunning then updates.set "compress" StatusFailed else updates
  let updates :=
    if item.upload = StatusUploading then updates.set "upload" StatusFailed else updates
  updates

/-- One row after an update with the column map `vars`: a column named in the
map takes the map's value, every other column keeps its own. -/
def updateRow (r : Snapshot) (vars : GoMap String) : Snapshot :=
  { id := r.id
    status := (vars.get "status").getD r.status
    message := (vars.get "message").getD r.message
    recoverStatus := (vars.get "recover_status").getD r.recoverStatus
    recoverMessage := (vars.get "recover_message").getD r.recoverMessage
    rollbackStatus := (vars.get "rollback_status").getD r.rollbackStatus
    rollbackMessage := (vars.get "rollback_message").getD r.rollbackMessage
    panel := (vars.get "panel").getD r.panel
    panelInfo := (vars.get "panel_info").getD r.panelInfo
    daemonJson := (vars.get "daemon_json").getD r.daemonJson
    appData := (vars.get "app_data").getD r.appData
    panelData := (vars.get "panel_data").getD r.panelData
    backupData := (vars.get "backup_data").getD r.backupData
    compress := (vars.get "compress").getD r.compress
    upload := (vars.get "upload").getD r.upload }

/-- Modelled from the spec: `snapRepo.UpdateStatus(id, vars)` (package `repo` is
not among the sources), the record store's `update(id, fieldMap)`, succeeding:
the rows with that id take the columns of the map. -/
def UpdateStatus (db : List Snapshot) (id : Nat) (vars : GoMap String) : List Snapshot :=
  db.map (fun r => if r.id = id then updateRow r vars else r)

/-- Modelled from the spec: `snapRepo.GetStatusList()` (package `repo` is not
among the sources), succeeding: every row, as it stands when read. -/
def GetStatusList (db : List Snapshot) : List Snapshot := db

/-- The record store during the per-item loop, with the `UpdateStatus` calls
made so far (id and column map, in order). -/
structure SweepState where
  db : List Snapshot
  calls : List (Nat × GoMap String)

/-- The body of `for _, item := range status`. -/
def sweepItem (st : SweepState) (item : Snapshot) : SweepState :=
  let updates := buildUpdates item
  if updates.len ≠ 0 then
    { db := UpdateStatus st.db item.id updates, calls := st.calls ++ [(item.id, updates)] }
  else st

/-- `handleSnapStatus` on the snapshot rows, every update succeeding: the four
bulk updates, then the loop over the status list. -/
def handleSnapStatus (db : List Snapshot) : SweepState :=
  let db := bulkPass db
  let status := GetStatusList db
  status.foldl sweepItem { db := db, calls := [] }

/-- What the bulk updates and the update built for the row itself do to one
row. -/
def sweepRecord (r : Snapshot) : Snapshot :=
  let r := rowRollback (rowRecover (rowStatus (rowOnSaveData r)))
  updateRow r (buildUpdates r)

/-- The number of rows each of the four bulk updates of `handleSnapStatus`
matches, in order: each `Where` is evaluated on the rows as the updates before
it left them. -/
def bulkMatched (db : List Snapshot) : List Nat :=
  let n1 := (db.filter (fun r => decide (r.status = "OnSaveData"))).length
  let db := db.map rowOnSaveData
  let n2 := (db.filter (fun r => decide (r.status = StatusWaiting))).length
  let db := db.map rowStatus
  let n3 := (db.filter (fun r => decide (r.recoverStatus = StatusWaiting))).length
  let db := db.map rowRecover
  let n4 := (db.filter (fun r => decide (r.rollbackStatus = StatusWaiting))).length
  [n1, n2, n3, n4]

/-- A record on which a run of `handleSnapStatus` finds nothing to do: no
`Where` of the bulk updates matches it and none of its phase fields holds its
marker. -/
def Snapshot.settled (r : Snapshot) : Prop :=
  r.status ≠ "OnSaveData" ∧ r.status ≠ StatusWaiting ∧ r.recoverStatus ≠ StatusWaiting
    ∧ r.rollbackStatus ≠ StatusWaiting
    ∧ r.panel ≠ StatusRunning ∧ r.panelInfo ≠ StatusRunning ∧ r.daemonJson ≠ StatusRunning
    ∧ r.appData ≠ StatusRunning ∧ r.panelData ≠ StatusRunning
    ∧ r.backupData ≠ StatusRunning ∧ r.compress ≠ StatusRunning
    ∧ r.upload ≠ StatusUploading

/-- The id of a row with its three status dimensions, each with its message. -/
def Snapshot.dimensions (r : Snapshot) :
    Nat × (String × String) × (String × String) × (String × String) :=
  (r.id, (r.status, r.message), (r.recoverStatus, r.recoverMessage),
    (r.rollbackStatus, r.rollbackMessage))

/-! ## `handleCronjobStatus` -/

/-- Modelled from the spec: the job record (`model.JobRecords` is not among the
sources): one row per job execution with a status and a free-text message. -/
structure JobRecord where
  id : Nat
  status : String
  message : String
  deriving DecidableEq

/-- `handleCronjobStatus` on the job rows, the update succeeding:
`Where("status = ?", StatusWaiting)` sets `status` and `message`. -/
def handleCronjobStatus (db : List JobRecord) : List JobRecord :=
  db.map (fun r =>
    if r.status = StatusWaiting then
      { r with
        status := StatusFailed
        message := "the task was interrupted due to the restart of the 1panel service" }
    else r)

/-! ## `Init` -/

/-- Modelled from the spec: the setting store behind `repo.NewISettingRepo()`
(package `repo` is not among the sources), over any store state `σ`: `Get`
gives the value of the setting it returns and its error, `Create` and `Update`
give the store they leave and their error (`none` for `nil`). -/
structure SettingRepo (σ : Type) where
  get : σ → String → String × Option String
  create : σ → String → String → σ × Option String
  update : σ → String → String → σ × Option String

/-- What `Init` does that is seen from outside, in order. -/
inductive InitStep where
  | logError (key : String)
  | create (key value : String) (err : Option String)
  | update (key value : String) (err : Option String)
  | fatal
  | handleCronjobStatus
  | handleSnapStatus
  | loadLocalDir
  | initDir
  deriving DecidableEq

/-- The state `Init` works on: the setting store, the job and snapshot rows,
the two credentials of `global.CONF.System`, the steps taken so far and
whether the process has exited (`LOG.Fatalf` logs and exits). -/
structure InitState (σ : Type) where
  settings : σ
  jobs : List JobRecord
  snapshots : List Snapshot
  oneDriveID : String
  oneDriveSc : String
  steps : List InitStep
  exited : Bool

/-- The store `Init` calls `Update` on: `Create("SystemStatus", "Free")` has run
first, its error dropped, when `Get` of `SystemStatus` gave an error. -/
def storeBeforeUpdate {σ : Type} (repo : SettingRepo σ) (settings : σ) : σ :=
  if (repo.get settings "SystemStatus").2 ≠ none then
    (repo.create settings "SystemStatus" "Free").1
  else settings

/-- `Init`. `decode` is `base64.StdEncoding.DecodeString` with its error
dropped. A failed `Get` of a credential is logged and `Init` goes on; a failed
`Update` of `SystemStatus` is fatal. -/
def Init {σ : Type} (repo : SettingRepo σ) (decode : String → String) (st : InitState σ) :
    InitState σ :=
  let oneDriveID := repo.get st.settings "OneDriveID"
  let steps := if oneDriveID.2 ≠ none then st.steps ++ [.logError "OneDriveID"] else st.steps
  let idItem := decode oneDriveID.1
  let oneDriveSc := repo.get st.settings "OneDriveSc"
  let steps := if oneDriveSc.2 ≠ none then steps ++ [.logError "OneDriveSc"] else steps
  let scItem := decode oneDriveSc.1
  let steps :=
    if (repo.get st.settings "SystemStatus").2 ≠ none then
      steps ++ [.create "SystemStatus" "Free" (repo.create st.settings "SystemStatus" "Free").2]
    else steps
  let updated := repo.update (storeBeforeUpdate repo st.settings) "SystemStatus" "Free"
  let steps := steps ++ [.update "SystemStatus" "Free" updated.2]
  if updated.2 ≠ none then
    { settings := updated.1, jobs := st.jobs, snapshots := st.snapshots
      oneDriveID := idItem, oneDriveSc := scItem
      steps := steps ++ [.fatal], exited := true }
  else
    { settings := updated.1
      jobs := handleCronjobStatus st.jobs
      snapshots := (handleSnapStatus st.snapshots).db
      oneDriveID := idItem, oneDriveSc := scItem
      steps := steps ++ [.handleCronjobStatus, .handleSnapStatus, .loadLocalDir, .initDir]
      exited := st.exited }

/-! # Theorems -/

/-! ## Go maps -/

theorem GoMap.get_append {V : Type} (m n : GoMap V) (k : String) :
    GoMap.get (m ++ n) k = (GoMap.get m k).orElse (fun _ => GoMap.get n k) := by
  induction m with
  | nil => simp [GoMap.get]
  | cons p rest ih =>
    obtain ⟨k1, v⟩ := p
    by_cases h : k1 = k
    · simp [GoMap.get, h]
    · simp [GoMap.get, h, ih]

theorem GoMap.get_delete_self {V : Type} (m : GoMap V) (k : String) :
    GoMap.get (GoMap.delete m k) k = none := by
  induction m with
  | nil => simp [GoMap.get, GoMap.delete]
  | cons p rest ih =>
    obtain ⟨k1, v⟩ := p
    by_cases h : k1 = k
    · simpa [GoMap.delete, h] using ih
    · simpa [GoMap.delete, h, GoMap.get] using ih

theorem GoMap.get_delete_of_ne {V : Type} (m : GoMap V) (k k2 : String) (hne : k2 ≠ k) :
    GoMap.get (GoMap.delete m k) k2 = GoMap.get m k2 := by
  induction m with
  | nil => simp [GoMap.get, GoMap.delete]
  | cons p rest ih =>
    obtain ⟨k1, v⟩ := p
    by_cases h : k1 = k
    · have h2 : k1 ≠ k2 := fun e => hne (e ▸ h)
      rw [GoMap.get, if_neg h2, ← ih]
      simp [GoMap.delete, h]
    · by_cases h3 : k1 = k2
      · subst h3
        simp [GoMap.delete, h, GoMap.get]
      · rw [GoMap.get, if_neg h3, ← ih]
        simp [GoMap.delete, h, GoMap.get, h3]

theorem GoMap.get_set_self {V : Type} (m : GoMap V) (k : String) (v : V) :
    GoMap.get (GoMap.set m k v) k = some v := by
  simp [GoMap.set, GoMap.get_append, GoMap.get_delete_self, GoMap.get]

theorem GoMap.get_set_of_ne {V : Type} (m : GoMap V) (k k2 : String) (v : V) (hne : k2 ≠ k) :
    GoMap.get (GoMap.set m k v) k2 = GoMap.get m k2 := by
  have h : k ≠ k2 := fun e => hne e.symm
  simp [GoMap.set, GoMap.get_append, GoMap.get_delete_of_ne _ _ _ hne, GoMap.get, h]

/-! ## The removal loop -/

theorem JVal.eqString_iff (v : JVal) (s : String) : v.eqString s = true ↔ v = .str s := by
  cases v <;> simp [JVal.eqString]

theorem removeLoop_skip (d : String) (g f : Nat) : ∀ (i : Nat) (a : List JVal) (m : Nat),
    (∀ k, i ≤ k → k < i + g → a[k]? ≠ some (.str d)) →
    removeLoop d (g + f) i a m = removeLoop d f (i + g) a m := by
  induction g with
  | zero => intro i a m _; simp
  | succ g ih =>
    intro i a m h
    have hi : a[i]? ≠ some (.str d) := h i (le_refl _) (by omega)
    have hrest : removeLoop d (g + f) (i + 1) a m = removeLoop d f (i + 1 + g) a m :=
      ih (i + 1) a m (fun k hk1 hk2 => h k (by omega) (by omega))
    have e1 : g + 1 + f = (g + f) + 1 := by omega
    have e2 : i + (g + 1) = i + 1 + g := by omega
    rw [e1, e2, ← hrest, removeLoop]
    cases hget : a[i]? with
    | none => rfl
    | some regi =>
      have hne : regi.eqString d = false := by
        cases hb : regi.eqString d with
        | false => rfl
        | true =>
          exfalso
          apply hi
          rw [hget, (JVal.eqString_iff regi d).mp hb]
      simp [hne]

theorem removeLoop_noop (d : String) (g i : Nat) (a : List JVal) (m : Nat)
    (h : ∀ k, i ≤ k → k < i + g → a[k]? ≠ some (.str d)) :
    removeLoop d g i a m = .ok (a, m) := by
  have := removeLoop_skip d g 0 i a m h
  simpa [removeLoop] using this

theorem getElem?_right_ne (p q : List JVal) (x : JVal) (hq : x ∉ q) (k : Nat) (hk : p.length ≤ k) :
    (p ++ q)[k]? ≠ some x := by
  intro e
  rw [List.getElem?_append_right hk] at e
  exact hq (List.getElem?_mem e)

theorem getElem?_left_ne (p q : List JVal) (x : JVal) (hp : x ∉ p) (k : Nat) (hk : k < p.length) :
    (p ++ q)[k]? ≠ some x := by
  intro e
  rw [List.getElem?_append_left hk] at e
  exact hp (List.getElem?_mem e)

theorem removeAt_split (p q : List JVal) (x : JVal) :
    removeAt (p ++ x :: q) (p.length + 1 + q.length) p.length
      = p ++ (q ++ (x :: q).drop q.length) := by
  unfold removeAt
  have h1 : (p ++ x :: q).take p.length = p := by simp
  have h2 : (p ++ x :: q).drop (p.length + 1) = q := by
    rw [List.drop_append_eq_append_drop]; simp
  have h3 : p.length + 1 + q.length - (p.length + 1) = q.length := by omega
  have h4 : (p ++ x :: q).drop (p.length + 1 + q.length - 1) = (x :: q).drop q.length := by
    have : p.length + 1 + q.length - 1 = p.length + q.length := by omega
    rw [this, List.drop_append]
  rw [h1, h2, h3, h4, List.take_length]

theorem mem_drop_tail (x : JVal) (q : List JVal) (hq : q ≠ []) :
    ∀ y ∈ (x :: q).drop q.length, y ∈ q := by
  intro y hy
  cases q with
  | nil => exact absurd rfl hq
  | cons z q =>
    simp only [List.length_cons, List.drop_succ_cons] at hy
    exact List.mem_of_mem_drop hy

/-- The removal loop on a list that holds the host exactly once. -/
theorem removeHost_split (d : String) (p q : List JVal)
    (hp : JVal.str d ∉ p) (hq : JVal.str d ∉ q) :
    removeHost d (p ++ .str d :: q) = .ok (p ++ q) := by
  unfold removeHost
  have hlen : (p ++ JVal.str d :: q).length = p.length + (q.length + 1) := by simp
  have hskip := removeLoop_skip d p.length (q.length + 1) 0 (p ++ .str d :: q)
    (p.length + (q.length + 1))
    (fun k _ hk => getElem?_left_ne p _ _ hp k (by omega))
  rw [hlen, hskip]
  have hget : (p ++ JVal.str d :: q)[0 + p.length]? = some (.str d) := by
    rw [Nat.zero_add, List.getElem?_append_right (le_refl _)]; simp
  have hstep : removeLoop d (q.length + 1) (0 + p.length) (p ++ .str d :: q)
      (p.length + (q.length + 1))
      = removeLoop d q.length (0 + p.length + 1)
          (removeAt (p ++ .str d :: q) (p.length + (q.length + 1)) (0 + p.length))
          (p.length + (q.length + 1) - 1) := by
    rw [removeLoop, hget]
    have : (JVal.str d).eqString d = true := (JVal.eqString_iff _ _).mpr rfl
    simp [this]
  rw [hstep]
  have e1 : p.length + (q.length + 1) = p.length + 1 + q.length := by omega
  have e2 : 0 + p.length = p.length := by omega
  rw [e2, e1, removeAt_split]
  by_cases hq0 : q = []
  · subst hq0
    simp [removeLoop]
  · have hno : JVal.str d ∉ q ++ (JVal.str d :: q).drop q.length := by
      intro hmem
      rcases List.mem_append.mp hmem with h | h
      · exact hq h
      · exact hq (mem_drop_tail _ q hq0 _ h)
    rw [removeLoop_noop d q.length (p.length + 1) _ _
      (fun k hk _ => getElem?_right_ne p _ _ hno k (by omega))]
    have e3 : p.length + 1 + q.length - 1 = p.length + q.length := by omega
    simp only [e3]
    congr 1
    rw [← List.append_assoc, List.take_append_eq_append_take]
    simp

theorem removeHost_absent (d : String) (l : List JVal) (h : JVal.str d ∉ l) :
    removeHost d l = .ok l := by
  unfold removeHost
  rw [removeLoop_noop d l.length 0 l l.length
    (fun k _ _ => by simpa using getElem?_right_ne [] l _ h k (by simp))]
  simp

/-- On a duplicate-free list of strings the removal loop is a filter. -/
theorem removeHost_nodup (d : String) (hosts : List String) (hnd : hosts.Nodup) :
    removeHost d (hosts.map JVal.str) = .ok ((hosts.filter (fun h => decide (h ≠ d))).map JVal.str) := by
  have hinj : Function.Injective JVal.str := fun a b e => by cases e; rfl
  by_cases hmem : d ∈ hosts
  · obtain ⟨p, q, rfl⟩ := List.append_of_mem hmem
    have hnd2 := hnd
    rw [List.nodup_append] at hnd2
    obtain ⟨_, hq, hdisj⟩ := hnd2
    have hdp : d ∉ p := fun h => hdisj h (List.mem_cons_self _ _)
    have hdq : d ∉ q := (List.nodup_cons.mp hq).1
    have fp : p.filter (fun h => decide (h ≠ d)) = p :=
      List.filter_eq_self.mpr (fun x hx => by simpa using fun (e : x = d) => hdp (e ▸ hx))
    have fq : q.filter (fun h => decide (h ≠ d)) = q :=
      List.filter_eq_self.mpr (fun x hx => by simpa using fun (e : x = d) => hdq (e ▸ hx))
    rw [List.filter_append, List.filter_cons, fp, fq]
    simp only [ne_eq, not_true_eq_false, decide_False, Bool.false_eq_true, ↓reduceIte,
      List.map_append, List.map_cons]
    exact removeHost_split d _ _ (by simpa using hdp) (by simpa using hdq)
  · have ff : hosts.filter (fun h => decide (h ≠ d)) = hosts :=
      List.filter_eq_self.mpr (fun x hx => by simpa using fun (e : x = d) => hmem (e ▸ hx))
    rw [ff]
    exact removeHost_absent d _ (by simpa using hmem)

/-! ## `RemoveRepeatElement` -/

theorem mem_RemoveRepeatElement (x : JVal) (l : List JVal) :
    x ∈ RemoveRepeatElement l ↔ x ∈ l := by
  induction l with
  | nil => simp [RemoveRepeatElement]
  | cons y ys ih =>
    simp only [RemoveRepeatElement, List.mem_cons, List.mem_filter, ih, decide_eq_true_eq]
    constructor
    · rintro (h | ⟨h, _⟩)
      · exact Or.inl h
      · exact Or.inr h
    · rintro (h | h)
      · exact Or.inl h
      · by_cases e : x = y
        · exact Or.inl e
        · exact Or.inr ⟨h, e⟩

theorem nodup_RemoveRepeatElement (l : List JVal) : (RemoveRepeatElement l).Nodup := by
  induction l with
  | nil => simp [RemoveRepeatElement]
  | cons y ys ih =>
    simp only [RemoveRepeatElement, List.nodup_cons, List.mem_filter, decide_eq_true_eq]
    exact ⟨fun h => h.2 rfl, ih.filter _⟩

theorem RemoveRepeatElement_ne_nil (l : List JVal) (x : JVal) :
    RemoveRepeatElement (l ++ [x]) ≠ [] := by
  intro h
  have : x ∈ RemoveRepeatElement (l ++ [x]) := (mem_RemoveRepeatElement _ _).mpr (by simp)
  rw [h] at this
  exact List.not_mem_nil _ this

/-! ## `handleRegistries` -/

theorem Document.read_deleted_key (d : Document) (k : String) :
    Document.get (Document.delete d k) k = none := by
  cases d with
  | none => rfl
  | some m => exact GoMap.get_delete_self m k

theorem Document.read_other_key_after_delete (d : Document) (k k2 : String) (hne : k2 ≠ k) :
    Document.get (Document.delete d k) k2 = Document.get d k2 := by
  cases d with
  | none => rfl
  | some m => exact GoMap.get_delete_of_ne m k k2 hne

theorem Document.get_eq_some (d : Document) (k : String) (v : JVal)
    (h : Document.get d k = some v) : ∃ m, d = some m ∧ GoMap.get m k = some v := by
  cases d with
  | none => cases h
  | some m => exact ⟨m, rfl, h⟩

theorem handleRegistries_ok_cases (daemonMap : Document) (newHost delHost handle : String)
    (out : Document) (h : handleRegistries daemonMap newHost delHost handle = .ok out) :
    out = Document.delete daemonMap "insecure-registries" ∨
      ∃ l m, l ≠ [] ∧ daemonMap = some m
        ∧ out = some (GoMap.set m "insecure-registries" (.arr l)) := by
  unfold handleRegistries at h
  cases hs : switchHandle (asRegistries (Document.get daemonMap "insecure-registries"))
      newHost delHost handle with
  | error e => rw [hs] at h; cases h
  | ok registries =>
    rw [hs] at h
    by_cases hl : registries.length = 0
    · simp only [hl, if_true] at h
      cases h
      exact Or.inl rfl
    · simp only [hl, if_false] at h
      cases daemonMap with
      | none => cases h
      | some m =>
        cases h
        exact Or.inr ⟨registries, m, fun e => hl (by simp [e]), rfl, rfl⟩

theorem switchHandle_delete_nodup (oldHost : String) (hosts : List String) (hnd : hosts.Nodup) :
    switchHandle (hosts.map JVal.str) "" oldHost "delete"
      = .ok ((hosts.filter (fun h => decide (h ≠ oldHost))).map JVal.str) := by
  have h1 : ¬ ("delete" = "create") := by decide
  have h2 : ¬ ("delete" = "update") := by decide
  simp only [switchHandle, h1, h2, if_false, if_true]
  exact removeHost_nodup oldHost hosts hnd

theorem handleRegistries_delete_nodup (m : GoMap JVal) (hosts : List String)
    (oldHost : String)
    (hdoc : GoMap.get m "insecure-registries" = some (.arr (hosts.map JVal.str)))
    (hnd : hosts.Nodup) :
    handleRegistries (some m) "" oldHost "delete"
      = .ok (some (if hosts.filter (fun h => decide (h ≠ oldHost)) = [] then
          GoMap.delete m "insecure-registries"
        else GoMap.set m "insecure-registries"
          (.arr ((hosts.filter (fun h => decide (h ≠ oldHost))).map JVal.str)))) := by
  unfold handleRegistries
  simp only [Document.get, hdoc, asRegistries, switchHandle_delete_nodup oldHost hosts hnd,
    List.length_map, List.length_eq_zero, Document.delete, Document.set]
  split <;> rfl

/-- On a JSON object, `handleRegistries(newHost, "", "create")` does not panic and
writes a document whose insecure-registries list holds `newHost` and every
element the list held before. -/
theorem handleRegistries_create_object (m : GoMap JVal) (newHost : String) :
    ∃ l, handleRegistries (some m) newHost "" "create"
        = .ok (some (GoMap.set m "insecure-registries" (.arr l)))
      ∧ GoMap.get (GoMap.set m "insecure-registries" (.arr l)) "insecure-registries"
        = some (.arr l)
      ∧ JVal.str newHost ∈ l
      ∧ ∀ before, GoMap.get m "insecure-registries" = some (.arr before) →
          ∀ x, x ∈ before → x ∈ l := by
  refine ⟨RemoveRepeatElement
      (asRegistries (GoMap.get m "insecure-registries") ++ [.str newHost]), ?_,
      GoMap.get_set_self _ _ _, ?_, ?_⟩
  · unfold handleRegistries
    simp only [switchHandle, if_true, Document.get, Document.set]
    rw [if_neg]
    intro h0
    exact RemoveRepeatElement_ne_nil _ _ (List.length_eq_zero.mp h0)
  · rw [mem_RemoveRepeatElement]; simp
  · intro before hb x hx
    rw [mem_RemoveRepeatElement, hb]
    simp [asRegistries, hx]

/-- C1: on a parsed document whose insecure-registries value is a duplicate-free
list of strings, `handleRegistries("", oldHost, "delete")` leaves exactly the
elements other than `oldHost`, in their original order (the list itself when
`oldHost` is not in it), and stores that list under insecure-registries when it
is non-empty (the key is deleted otherwise). -/
theorem C1_delete_keeps_others (daemonMap : Document) (hosts : List String) (oldHost : String)
    (hdoc : Document.get daemonMap "insecure-registries" = some (.arr (hosts.map JVal.str)))
    (hnd : hosts.Nodup) :
    switchHandle (hosts.map JVal.str) "" oldHost "delete"
        = .ok ((hosts.filter (fun h => decide (h ≠ oldHost))).map JVal.str)
      ∧ (oldHost ∉ hosts → hosts.filter (fun h => decide (h ≠ oldHost)) = hosts)
      ∧ (∃ m, daemonMap = some m ∧ handleRegistries daemonMap "" oldHost "delete"
        = .ok (some (if hosts.filter (fun h => decide (h ≠ oldHost)) = [] then
            GoMap.delete m "insecure-registries"
          else GoMap.set m "insecure-registries"
            (.arr ((hosts.filter (fun h => decide (h ≠ oldHost))).map JVal.str)))))
      ∧ (hosts.filter (fun h => decide (h ≠ oldHost)) ≠ [] →
          ∃ out, handleRegistries daemonMap "" oldHost "delete" = .ok out ∧
            Document.get out "insecure-registries"
              = some (.arr ((hosts.filter (fun h => decide (h ≠ oldHost))).map JVal.str))) := by
  obtain ⟨m, rfl, hm⟩ := Document.get_eq_some _ _ _ hdoc
  have hsw := switchHandle_delete_nodup oldHost hosts hnd
  have hmain := handleRegistries_delete_nodup m hosts oldHost hm hnd
  refine ⟨hsw, ?_, ⟨m, rfl, hmain⟩, ?_⟩
  · intro hmem
    exact List.filter_eq_self.mpr (fun x hx => by simpa using fun (e : x = oldHost) => hmem (e ▸ hx))
  · intro hne
    refine ⟨_, hmain, ?_⟩
    rw [if_neg hne]
    exact GoMap.get_set_self _ _ _

theorem C1_delete_keeps_others_witness :
    Document.get (some [("debug", JVal.bool true),
        ("insecure-registries", JVal.arr (["a.com", "b.com", "c.com"].map JVal.str))])
        "insecure-registries" = some (.arr (["a.com", "b.com", "c.com"].map JVal.str))
      ∧ ["a.com", "b.com", "c.com"].Nodup
      ∧ handleRegistries (some [("debug", JVal.bool true),
          ("insecure-registries", JVal.arr (["a.com", "b.com", "c.com"].map JVal.str))])
          "" "b.com" "delete"
        = .ok (some [("debug", JVal.bool true),
          ("insecure-registries", JVal.arr [JVal.str "a.com", JVal.str "c.com"])]) := by
  refine ⟨by rfl, by decide, ?_⟩
  obtain ⟨m, hm, h⟩ :=
    (C1_delete_keeps_others (some [("debug", JVal.bool true),
        ("insecure-registries", JVal.arr (["a.com", "b.com", "c.com"].map JVal.str))])
      ["a.com", "b.com", "c.com"] "b.com" (by rfl) (by decide)).2.2.1
  cases hm
  exact h.trans (by rfl)

/-- C2: from a duplicate-free starting list of hosts, `handleRegistries(newHost,
oldHost, "update")` writes a duplicate-free trust list whose elements are those
of the starting list other than `oldHost`, together with `newHost`; from
`["a.com","b.com"]`, update(new = "c.com", old = "a.com") writes exactly
`["b.com","c.com"]`. -/
theorem C2_update_set (daemonMap : Document) (hosts : List String) (newHost oldHost : String)
    (hdoc : Document.get daemonMap "insecure-registries" = some (.arr (hosts.map JVal.str)))
    (hnd : hosts.Nodup) :
    (∃ m l, daemonMap = some m ∧ handleRegistries daemonMap newHost oldHost "update"
          = .ok (some (GoMap.set m "insecure-registries" (.arr l)))
        ∧ l.Nodup
        ∧ ∀ x, x ∈ l ↔ (x ∈ hosts.map JVal.str ∧ x ≠ .str oldHost) ∨ x = .str newHost)
      ∧ handleRegistries (some [("insecure-registries", .arr [.str "a.com", .str "b.com"])])
          "c.com" "a.com" "update"
        = .ok (some [("insecure-registries", .arr [.str "b.com", .str "c.com"])]) := by
  obtain ⟨m, rfl, hm⟩ := Document.get_eq_some _ _ _ hdoc
  refine ⟨⟨m, RemoveRepeatElement
      ((hosts.filter (fun h => decide (h ≠ oldHost))).map JVal.str ++ [.str newHost]), rfl, ?_,
      nodup_RemoveRepeatElement _, ?_⟩, by rfl⟩
  · have h1 : ¬ ("update" = "create") := by decide
    unfold handleRegistries
    simp only [Document.get, hm, asRegistries, switchHandle, h1, if_false, if_true,
      removeHost_nodup oldHost hosts hnd, Document.set]
    rw [if_neg]
    intro h0
    exact RemoveRepeatElement_ne_nil _ _ (List.length_eq_zero.mp h0)
  · intro x
    rw [mem_RemoveRepeatElement]
    simp only [List.mem_append, List.mem_map, List.mem_filter, decide_eq_true_eq,
      List.mem_singleton]
    constructor
    · rintro (⟨h, ⟨hm, hne⟩, rfl⟩ | h)
      · exact Or.inl ⟨⟨h, hm, rfl⟩, fun e => hne (by cases e; rfl)⟩
      · exact Or.inr h
    · rintro (⟨⟨h, hm, rfl⟩, hne⟩ | h)
      · exact Or.inl ⟨h, ⟨hm, fun e => hne (by rw [e])⟩, rfl⟩
      · exact Or.inr h

theorem C2_update_set_witness :
    ∃ m l, (some [("insecure-registries", JVal.arr (["a.com", "b.com"].map JVal.str))]
          : Document) = some m
      ∧ handleRegistries
          (some [("insecure-registries", JVal.arr (["a.com", "b.com"].map JVal.str))])
          "b.com" "a.com" "update"
        = .ok (some (GoMap.set m "insecure-registries" (.arr l)))
      ∧ l.Nodup
      ∧ ∀ x, x ∈ l ↔ (x ∈ ["a.com", "b.com"].map JVal.str ∧ x ≠ .str "a.com") ∨ x = .str "b.com" :=
  (C2_update_set (some [("insecure-registries", JVal.arr (["a.com", "b.com"].map JVal.str))])
    ["a.com", "b.com"] "b.com" "a.com" (by rfl) (by decide)).1

/-- C3 fails on the code: when `daemon.json` holds `null`, `json.Unmarshal`
leaves `daemonMap` nil, and `handleRegistries(newHost, "", "create")` panics
with `assignment to entry in nil map` at `daemonMap["insecure-registries"] =
registries`, so nothing is written; on the empty object `{}` the same call
writes `{"insecure-registries": [newHost]}`. -/
theorem C3_create_on_null_document_panics :
    handleRegistries none "a.com" "" "create" = .error .nilMapAssign
      ∧ (∀ newHost, handleRegistries none newHost "" "create" = .error .nilMapAssign)
      ∧ handleRegistries (some []) "a.com" "" "create"
        = .ok (some [("insecure-registries", .arr [.str "a.com"])]) := by
  refine ⟨by rfl, ?_, by rfl⟩
  intro newHost
  unfold handleRegistries
  simp only [switchHandle, if_true]
  rw [if_neg]
  · rfl
  · intro h0
    exact RemoveRepeatElement_ne_nil _ _ (List.length_eq_zero.mp h0)

/-- C4: the document `handleRegistries` writes either has no insecure-registries
key or maps it to a non-empty list, whatever the parsed document, the hosts and
the mode; deleting the only host of a one-element list writes a document
without the key. -/
theorem C4_never_empty_list (daemonMap : Document) (newHost delHost handle : String)
    (out : Document) (h : handleRegistries daemonMap newHost delHost handle = .ok out) :
    (Document.get out "insecure-registries" = none
        ∨ ∃ l, l ≠ [] ∧ Document.get out "insecure-registries" = some (.arr l))
      ∧ ∀ host, Document.get daemonMap "insecure-registries" = some (.arr [.str host]) →
          handleRegistries daemonMap "" host "delete"
              = .ok (Document.delete daemonMap "insecure-registries")
            ∧ Document.get (Document.delete daemonMap "insecure-registries")
                "insecure-registries" = none := by
  constructor
  · rcases handleRegistries_ok_cases _ _ _ _ _ h with rfl | ⟨l, m, hl, rfl, rfl⟩
    · exact Or.inl (Document.read_deleted_key _ _)
    · exact Or.inr ⟨l, hl, GoMap.get_set_self _ _ _⟩
  · intro host hdoc
    refine ⟨?_, Document.read_deleted_key _ _⟩
    obtain ⟨m, rfl, hm⟩ := Document.get_eq_some _ _ _ hdoc
    have hd := handleRegistries_delete_nodup m [host] host hm (by simp)
    simpa [Document.delete] using hd

theorem C4_never_empty_list_witness :
    (Document.get (some []) "insecure-registries" = none
        ∨ ∃ l, l ≠ [] ∧ Document.get (some []) "insecure-registries" = some (.arr l))
      ∧ ∀ host, Document.get (some [("insecure-registries", JVal.arr [.str "a.com"])])
            "insecure-registries" = some (.arr [.str host]) →
          handleRegistries (some [("insecure-registries", JVal.arr [.str "a.com"])])
              "" host "delete"
              = .ok (Document.delete (some [("insecure-registries", JVal.arr [.str "a.com"])])
                  "insecure-registries")
            ∧ Document.get
                (Document.delete (some [("insecure-registries", JVal.arr [.str "a.com"])])
                  "insecure-registries") "insecure-registries" = none :=
  C4_never_empty_list (some [("insecure-registries", JVal.arr [.str "a.com"])])
    "" "a.com" "delete" (some []) (by rfl)

/-- C5: whatever the parsed document, the hosts and the mode, every top-level
key other than insecure-registries has in the document `handleRegistries`
writes the value it had in the parsed document, and a key absent before is
absent after. -/
theorem C5_other_keys_unchanged (daemonMap : Document) (newHost delHost handle : String)
    (out : Document) (h : handleRegistries daemonMap newHost delHost handle = .ok out)
    (k : String) (hk : k ≠ "insecure-registries") :
    Document.get out k = Document.get daemonMap k := by
  rcases handleRegistries_ok_cases _ _ _ _ _ h with rfl | ⟨l, m, _, rfl, rfl⟩
  · exact Document.read_other_key_after_delete _ _ _ hk
  · exact GoMap.get_set_of_ne _ _ _ _ hk

theorem C5_other_keys_unchanged_witness :
    Document.get (some [("debug", JVal.bool true),
        ("insecure-registries", JVal.arr [.str "a.com", .str "b.com"])]) "debug"
      = Document.get
          (some [("debug", JVal.bool true), ("insecure-registries", JVal.arr [.str "a.com"])])
          "debug" :=
  C5_other_keys_unchanged
    (some [("debug", JVal.bool true), ("insecure-registries", JVal.arr [.str "a.com"])])
    "b.com" "" "create"
    (some [("debug", JVal.bool true),
      ("insecure-registries", JVal.arr [.str "a.com", .str "b.com"])])
    (by rfl) "debug" (by decide)

/-! ## The polling loop -/

/-- The tick times `3, 6, ..., 3 * k`. -/
theorem tickTimes_succ (j : Nat) :
    (List.range j).map (fun i => tickInterval * (i + 1)) ++ [tickInterval * (j + 1)]
      = (List.range (j + 1)).map (fun i => tickInterval * (i + 1)) := by
  rw [List.range_succ, List.map_append]; rfl

/-- When query `n` (counted from 0, so at most the sixth) is the first to answer
active, the loop started at tick `j + 1` with `j` queries made returns `nil` at
tick `n + 1`. -/
theorem pollLoop_first_active (exec : Nat → ExecResult) (n : Nat) (hn : n < 6)
    (hact : isActive (exec n) = true) :
    ∀ (d j fuel : Nat), j + d = n → d + 1 ≤ fuel →
      (∀ i, j ≤ i → i < n → isActive (exec i) = false) →
      pollLoop exec fuel (j + 1) ((List.range j).map (fun i => tickInterval * (i + 1)))
        = some ⟨none, (List.range (n + 1)).map (fun i => tickInterval * (i + 1)),
            tickInterval * (n + 1)⟩ := by
  intro d
  induction d with
  | zero =>
    intro j fuel hj hf _
    obtain ⟨f, rfl⟩ : ∃ f, fuel = f + 1 := ⟨fuel - 1, by omega⟩
    have hjn : j = n := by omega
    subst hjn
    have hlt : ¬ (pollTimeout ≤ tickInterval * (j + 1)) := by
      simp only [pollTimeout, tickInterval]; omega
    rw [pollLoop, if_neg hlt]
    simp only [List.length_map, List.length_range, hact, if_true, tickTimes_succ]
  | succ d ih =>
    intro j fuel hj hf hno
    obtain ⟨f, rfl⟩ : ∃ f, fuel = f + 1 := ⟨fuel - 1, by omega⟩
    have hlt : ¬ (pollTimeout ≤ tickInterval * (j + 1)) := by
      simp only [pollTimeout, tickInterval]; omega
    have hina : isActive (exec j) = false := hno j (le_refl _) (by omega)
    rw [pollLoop, if_neg hlt]
    simp only [List.length_map, List.length_range, hina, tickTimes_succ]
    exact ih (j + 1) f (by omega) (by omega) (fun i hi hin => hno i (by omega) hin)

/-- When none of the first six queries answers active, the loop returns the
error at the seventh tick. -/
theorem pollLoop_timeout (exec : Nat → ExecResult)
    (hno : ∀ i, i < 6 → isActive (exec i) = false) (fuel : Nat) (hf : 7 ≤ fuel) :
    createPoll exec fuel
      = some ⟨some "the docker service cannot be restarted", [3, 6, 9, 12, 15, 18], 21⟩ := by
  obtain ⟨f, rfl⟩ : ∃ f, fuel = f + 7 := ⟨fuel - 7, by omega⟩
  have h0 := hno 0 (by omega)
  have h1 := hno 1 (by omega)
  have h2 := hno 2 (by omega)
  have h3 := hno 3 (by omega)
  have h4 := hno 4 (by omega)
  have h5 := hno 5 (by omega)
  simp [createPoll, pollLoop, pollTimeout, tickInterval, h0, h1, h2, h3, h4, h5]

theorem isActive_iff (r : ExecResult) :
    isActive r = true ↔ r.stdout = "active\n" ∧ r.err = none := by
  cases r with
  | mk s e => cases e <;> simp [isActive]

/-- C6: against a service manager that never answers "active" without error,
the polling loop of `ImageRepoService.Create` returns the error "the docker
service cannot be restarted" (given at least seven ticks), having queried the
service state at the six ticks before the 20 s deadline, 3, 6, 9, 12, 15 and
18 s, and at no tick after it; it returns at the tick at 21 s. -/
theorem C6_never_active_times_out (exec : Nat → ExecResult)
    (hnever : ∀ n, ¬ ((exec n).stdout = "active\n" ∧ (exec n).err = none))
    (fuel : Nat) (hf : 7 ≤ fuel) :
    createPoll exec fuel
        = some ⟨some "the docker service cannot be restarted", [3, 6, 9, 12, 15, 18], 21⟩
      ∧ ∀ out, createPoll exec fuel = some out → ∀ t ∈ out.polls, t < pollTimeout := by
  have h := pollLoop_timeout exec
    (fun i _ => by
      cases hb : isActive (exec i) with
      | false => rfl
      | true => exact absurd ((isActive_iff _).mp hb) (hnever i)) fuel hf
  refine ⟨h, ?_⟩
  intro out ho t ht
  rw [h] at ho
  cases ho
  simp only [List.mem_cons, List.mem_singleton, List.not_mem_nil, or_false] at ht
  simp only [pollTimeout]
  omega

theorem C6_never_active_times_out_witness :
    createPoll (fun _ => ⟨"inactive\n", none⟩) 7
        = some ⟨some "the docker service cannot be restarted", [3, 6, 9, 12, 15, 18], 21⟩
      ∧ ∀ out, createPoll (fun _ => ⟨"inactive\n", none⟩) 7 = some out →
          ∀ t ∈ out.polls, t < pollTimeout :=
  C6_never_active_times_out (fun _ => ⟨"inactive\n", none⟩)
    (fun _ h => absurd (show "inactive\n" = "active\n" from h.1) (by decide)) 7 (by decide)

/-- C7: when the `k`-th query (`1 ≤ k ≤ 6`) is the first to answer "active\n"
with no error, the polling loop returns `nil` after exactly `k` queries, made
at the ticks 3, 6, ..., 3k s, and makes no further query: it returns at the
`k`-th tick. -/
theorem C7_first_active_succeeds (exec : Nat → ExecResult) (k : Nat) (hk1 : 1 ≤ k) (hk6 : k ≤ 6)
    (hact : (exec (k - 1)).stdout = "active\n" ∧ (exec (k - 1)).err = none)
    (hfirst : ∀ i, i < k - 1 → ¬ ((exec i).stdout = "active\n" ∧ (exec i).err = none))
    (fuel : Nat) (hf : k ≤ fuel) :
    ∃ out, createPoll exec fuel = some out ∧ out.err = none ∧ out.polls.length = k
      ∧ out.polls = (List.range k).map (fun i => tickInterval * (i + 1))
      ∧ out.returnedAt = tickInterval * k := by
  obtain ⟨n, rfl⟩ : ∃ n, k = n + 1 := ⟨k - 1, by omega⟩
  simp only [Nat.add_sub_cancel] at hact hfirst
  have h := pollLoop_first_active exec n (by omega) ((isActive_iff _).mpr hact) n 0 fuel
    (by omega) (by omega)
    (fun i _ hi => by
      cases hb : isActive (exec i) with
      | false => rfl
      | true => exact absurd ((isActive_iff _).mp hb) (hfirst i hi))
  refine ⟨_, h, rfl, by simp, rfl, rfl⟩

theorem C7_first_active_succeeds_witness :
    ∃ out, createPoll (fun n => if n = 2 then ⟨"active\n", none⟩ else ⟨"activating\n", some "exit status 3"⟩) 3
        = some out ∧ out.err = none ∧ out.polls.length = 3
      ∧ out.polls = (List.range 3).map (fun i => tickInterval * (i + 1))
      ∧ out.returnedAt = tickInterval * 3 :=
  C7_first_active_succeeds
    (fun n => if n = 2 then ⟨"active\n", none⟩ else ⟨"activating\n", some "exit status 3"⟩)
    3 (by decide) (by decide) (by decide)
    (fun i hi => by
      have h2 : i ≠ 2 := by omega
      simp [h2]) 3 (by decide)

/-- C8 as stated fails: against a service manager that never answers active the
loop returns at the tick at 21 s, after the 20 s deadline. -/
theorem C8_returns_after_deadline :
    ∃ out, createPoll (fun _ => ⟨"inactive\n", none⟩) 7 = some out
      ∧ ¬ (out.returnedAt ≤ pollTimeout) :=
  ⟨⟨some "the docker service cannot be restarted", [3, 6, 9, 12, 15, 18], 21⟩, by rfl, by decide⟩

/-- C8, amended: for every sequence of observations the polling loop returns
(given at least seven ticks) at a tick no later than 21 s after it starts, the
first tick after the 20 s deadline: at 18 s or earlier when it returns `nil`,
at 21 s exactly when it returns the error; every query is made before the
deadline. -/
theorem C8_returns_by_first_tick_after_deadline (exec : Nat → ExecResult)
    (fuel : Nat) (hf : 7 ≤ fuel) :
    ∃ out, createPoll exec fuel = some out
      ∧ out.returnedAt ≤ 21
      ∧ (out.err = none → out.returnedAt ≤ 18)
      ∧ (out.err ≠ none → out.returnedAt = 21)
      ∧ ∀ t ∈ out.polls, t < pollTimeout := by
  by_cases hex : ∃ n, n < 6 ∧ isActive (exec n) = true
  · classical
    have hspec := Nat.find_spec hex
    have hmin : ∀ i, i < Nat.find hex → isActive (exec i) = false := by
      intro i hi
      have := Nat.find_min hex hi
      cases hb : isActive (exec i) with
      | false => rfl
      | true => exact absurd ⟨by omega, hb⟩ this
    have h := pollLoop_first_active exec (Nat.find hex) hspec.1 hspec.2 (Nat.find hex) 0 fuel
      (by omega) (by omega) (fun i _ hi => hmin i hi)
    have hlt := hspec.1
    refine ⟨_, h, ?_, ?_, ?_, ?_⟩
    · simp only [tickInterval]; omega
    · intro _; simp only [tickInterval]; omega
    · intro hne; exact absurd rfl hne
    · intro t ht
      simp only [List.mem_map, List.mem_range] at ht
      obtain ⟨i, hi, rfl⟩ := ht
      simp only [tickInterval, pollTimeout]; omega
  · have hno : ∀ i, i < 6 → isActive (exec i) = false := by
      intro i hi
      cases hb : isActive (exec i) with
      | false => rfl
      | true => exact absurd ⟨i, hi, hb⟩ hex
    refine ⟨_, pollLoop_timeout exec hno fuel hf, by decide, ?_, ?_, ?_⟩
    · intro h; cases h
    · intro _; rfl
    · intro t ht
      simp only [List.mem_cons, List.mem_singleton, List.not_mem_nil, or_false] at ht
      simp only [pollTimeout]
      omega

theorem C8_returns_by_first_tick_after_deadline_witness :
    ∃ out, createPoll (fun n => if n = 4 then ⟨"active\n", none⟩ else ⟨"inactive\n", none⟩) 7
        = some out
      ∧ out.returnedAt ≤ 21
      ∧ (out.err = none → out.returnedAt ≤ 18)
      ∧ (out.err ≠ none → out.returnedAt = 21)
      ∧ ∀ t ∈ out.polls, t < pollTimeout :=
  C8_returns_by_first_tick_after_deadline
    (fun n => if n = 4 then ⟨"active\n", none⟩ else ⟨"inactive\n", none⟩) 7 (by decide)

/-! ## `handleSnapStatus` -/

theorem GoMap.get_set_ite (u : GoMap String) (c : Prop) [Decidable c] (k v k2 : String) :
    GoMap.get (if c then u.set k v else u) k2
      = if c ∧ k2 = k then some v else u.get k2 := by
  by_cases hc : c
  · by_cases hk : k2 = k
    · subst hk; simp [hc, GoMap.get_set_self]
    · simp [hc, hk, GoMap.get_set_of_ne _ _ _ _ hk]
  · simp [hc]

/-- Every column of the map built for an item. -/
theorem buildUpdates_get (item : Snapshot) (col : String) :
    (buildUpdates item).get col
      = if item.upload = StatusUploading ∧ col = "upload" then some StatusFailed
        else if item.compress = StatusRunning ∧ col = "compress" then some StatusFailed
        else if item.backupData = StatusRunning ∧ col = "backup_data" then some StatusFailed
        else if item.panelData = StatusRunning ∧ col = "panel_data" then some StatusFailed
        else if item.appData = StatusRunning ∧ col = "app_data" then some StatusFailed
        else if item.daemonJson = StatusRunning ∧ col = "daemon_json" then some StatusFailed
        else if item.panelInfo = StatusRunning ∧ col = "panel_info" then some StatusFailed
        else if item.panel = StatusRunning ∧ col = "panel" then some StatusFailed
        else none := by
  simp only [buildUpdates, GoMap.get_set_ite]
  rfl

theorem buildUpdates_eq_nil_iff (item : Snapshot) :
    buildUpdates item = [] ↔ ∀ col, (buildUpdates item).get col = none := by
  constructor
  · intro h col; rw [h]; rfl
  · intro h
    cases hb : buildUpdates item with
    | nil => rfl
    | cons p rest =>
      have := h p.1
      rw [hb] at this
      simp [GoMap.get] at this

theorem updateRow_of_nil (r : Snapshot) : updateRow r [] = r := by
  cases r; rfl

theorem updateRow_id (r : Snapshot) (u : GoMap String) : (updateRow r u).id = r.id := rfl

theorem sweepItem_db (done rest : List Snapshot) (calls : List (Nat × GoMap String))
    (item : Snapshot) (hd : ∀ r ∈ done, r.id ≠ item.id) (hr : ∀ r ∈ rest, r.id ≠ item.id) :
    (sweepItem ⟨done ++ item :: rest, calls⟩ item).db
      = done ++ updateRow item (buildUpdates item) :: rest := by
  unfold sweepItem
  by_cases hlen : (buildUpdates item).len ≠ 0
  · rw [if_pos hlen]
    simp only [UpdateStatus, List.map_append, List.map_cons]
    have h1 : done.map (fun r => if r.id = item.id then updateRow r (buildUpdates item) else r)
        = done := by
      conv_rhs => rw [← List.map_id done]
      exact List.map_congr_left (fun r hm => by simp [hd r hm])
    have h2 : rest.map (fun r => if r.id = item.id then updateRow r (buildUpdates item) else r)
        = rest := by
      conv_rhs => rw [← List.map_id rest]
      exact List.map_congr_left (fun r hm => by simp [hr r hm])
    rw [h1, h2]
    simp
  · have hnil : buildUpdates item = [] := by
      have : (buildUpdates item).length = 0 := by simpa [GoMap.len] using hlen
      exact List.length_eq_zero.mp this
    rw [if_neg hlen, hnil, updateRow_of_nil]

theorem foldl_sweepItem_db : ∀ (todo done : List Snapshot) (calls : List (Nat × GoMap String)),
    ((done ++ todo).map Snapshot.id).Nodup →
    (todo.foldl sweepItem ⟨done ++ todo, calls⟩).db
      = done ++ todo.map (fun r => updateRow r (buildUpdates r)) := by
  intro todo
  induction todo with
  | nil => intro done calls _; simp
  | cons item rest ih =>
    intro done calls hnd
    have hnd2 := hnd
    rw [List.map_append, List.map_cons, List.nodup_append] at hnd2
    obtain ⟨_, hir, hdisj⟩ := hnd2
    have hd : ∀ r ∈ done, r.id ≠ item.id := fun r hm e =>
      hdisj (List.mem_map_of_mem _ hm) (by rw [e]; exact List.mem_cons_self _ _)
    have hr : ∀ r ∈ rest, r.id ≠ item.id := fun r hm e =>
      (List.nodup_cons.mp hir).1 (by rw [← e]; exact List.mem_map_of_mem _ hm)
    have hdb := sweepItem_db done rest calls item hd hr
    rw [List.foldl_cons]
    have hst : sweepItem ⟨done ++ item :: rest, calls⟩ item
        = ⟨(done ++ [updateRow item (buildUpdates item)]) ++ rest,
            (sweepItem ⟨done ++ item :: rest, calls⟩ item).calls⟩ := by
      cases hs : sweepItem ⟨done ++ item :: rest, calls⟩ item with
      | mk db c =>
        rw [hs] at hdb
        simp only at hdb
        simp [hdb]
    rw [hst, ih]
    · simp
    · simpa [updateRow_id] using hnd

theorem foldl_sweepItem_calls : ∀ (todo : List Snapshot) (st : SweepState),
    (todo.foldl sweepItem st).calls
      = st.calls ++ (todo.filter (fun item => decide ((buildUpdates item).len ≠ 0))).map
          (fun item => (item.id, buildUpdates item)) := by
  intro todo
  induction todo with
  | nil => intro st; simp
  | cons item rest ih =>
    intro st
    rw [List.foldl_cons, ih]
    by_cases hlen : (buildUpdates item).len ≠ 0
    · simp [sweepItem, hlen, List.filter_cons]
    · simp [sweepItem, hlen, List.filter_cons]

theorem bulkPass_ids (db : List Snapshot) : (bulkPass db).map Snapshot.id = db.map Snapshot.id := by
  simp only [bulkPass, List.map_map]
  apply List.map_congr_left
  intro r _
  simp only [Function.comp, rowOnSaveData, rowStatus, rowRecover, rowRollback]
  split_ifs <;> rfl

theorem bulkPass_eq_map (db : List Snapshot) :
    bulkPass db = db.map (fun r => rowRollback (rowRecover (rowStatus (rowOnSaveData r)))) := by
  simp [bulkPass]

/-- With distinct ids, `handleSnapStatus` is a row-by-row map. -/
theorem handleSnapStatus_db (db : List Snapshot) (hid : (db.map Snapshot.id).Nodup) :
    (handleSnapStatus db).db = db.map sweepRecord := by
  unfold handleSnapStatus GetStatusList
  have h := foldl_sweepItem_db (bulkPass db) [] [] (by simpa [bulkPass_ids] using hid)
  simp only [List.nil_append] at h
  rw [h, bulkPass_eq_map, List.map_map]
  rfl

theorem sweepRecord_phases (r : Snapshot) :
    (sweepRecord r).panel = (if r.panel = StatusRunning then StatusFailed else r.panel)
      ∧ (sweepRecord r).panelInfo
          = (if r.panelInfo = StatusRunning then StatusFailed else r.panelInfo)
      ∧ (sweepRecord r).daemonJson
          = (if r.daemonJson = StatusRunning then StatusFailed else r.daemonJson)
      ∧ (sweepRecord r).appData = (if r.appData = StatusRunning then StatusFailed else r.appData)
      ∧ (sweepRecord r).panelData
          = (if r.panelData = StatusRunning then StatusFailed else r.panelData)
      ∧ (sweepRecord r).backupData
          = (if r.backupData = StatusRunning then StatusFailed else r.backupData)
      ∧ (sweepRecord r).compress
          = (if r.compress = StatusRunning then StatusFailed else r.compress)
      ∧ (sweepRecord r).upload
          = (if r.upload = StatusUploading then StatusFailed else r.upload) := by
  have hp : (rowRollback (rowRecover (rowStatus (rowOnSaveData r)))).panel = r.panel
      ∧ (rowRollback (rowRecover (rowStatus (rowOnSaveData r)))).panelInfo = r.panelInfo
      ∧ (rowRollback (rowRecover (rowStatus (rowOnSaveData r)))).daemonJson = r.daemonJson
      ∧ (rowRollback (rowRecover (rowStatus (rowOnSaveData r)))).appData = r.appData
      ∧ (rowRollback (rowRecover (rowStatus (rowOnSaveData r)))).panelData = r.panelData
      ∧ (rowRollback (rowRecover (rowStatus (rowOnSaveData r)))).backupData = r.backupData
      ∧ (rowRollback (rowRecover (rowStatus (rowOnSaveData r)))).compress = r.compress
      ∧ (rowRollback (rowRecover (rowStatus (rowOnSaveData r)))).upload = r.upload := by
    simp only [rowOnSaveData, rowStatus, rowRecover, rowRollback]
    split_ifs <;> simp
  obtain ⟨h1, h2, h3, h4, h5, h6, h7, h8⟩ := hp
  simp only [sweepRecord, updateRow, buildUpdates_get, h1, h2, h3, h4, h5, h6, h7, h8]
  refine ⟨?_, ?_, ?_, ?_, ?_, ?_, ?_, ?_⟩ <;> simp <;> split_ifs <;> simp

theorem failed_ne_waiting : StatusFailed ≠ StatusWaiting := by decide

theorem rowStatus_ne_waiting (r : Snapshot) : (rowStatus r).status ≠ StatusWaiting := by
  unfold rowStatus
  split_ifs with h
  · exact failed_ne_waiting
  · exact h

theorem rowRecover_fields (r : Snapshot) :
    (rowRecover r).recoverStatus ≠ StatusWaiting ∧ (rowRecover r).status = r.status := by
  unfold rowRecover
  split_ifs with h
  · exact ⟨failed_ne_waiting, rfl⟩
  · exact ⟨h, rfl⟩

theorem rowRollback_fields (r : Snapshot) :
    (rowRollback r).rollbackStatus ≠ StatusWaiting ∧ (rowRollback r).status = r.status
      ∧ (rowRollback r).recoverStatus = r.recoverStatus := by
  unfold rowRollback
  split_ifs with h
  · exact ⟨failed_ne_waiting, rfl, rfl⟩
  · exact ⟨h, rfl, rfl⟩

theorem sweepRecord_status (r : Snapshot) :
    (sweepRecord r).status ≠ StatusWaiting
      ∧ (sweepRecord r).recoverStatus ≠ StatusWaiting
      ∧ (sweepRecord r).rollbackStatus ≠ StatusWaiting := by
  have e1 : (sweepRecord r).status
      = (rowRollback (rowRecover (rowStatus (rowOnSaveData r)))).status := by
    simp [sweepRecord, updateRow, buildUpdates_get]
  have e2 : (sweepRecord r).recoverStatus
      = (rowRollback (rowRecover (rowStatus (rowOnSaveData r)))).recoverStatus := by
    simp [sweepRecord, updateRow, buildUpdates_get]
  have e3 : (sweepRecord r).rollbackStatus
      = (rowRollback (rowRecover (rowStatus (rowOnSaveData r)))).rollbackStatus := by
    simp [sweepRecord, updateRow, buildUpdates_get]
  rw [e1, e2, e3]
  refine ⟨?_, ?_, (rowRollback_fields _).1⟩
  · rw [(rowRollback_fields _).2.1, (rowRecover_fields _).2]
    exact rowStatus_ne_waiting _
  · rw [(rowRollback_fields _).2.2]
    exact (rowRecover_fields _).1

theorem handleSnapStatus_calls (db : List Snapshot) :
    (handleSnapStatus db).calls
      = ((GetStatusList (bulkPass db)).filter
          (fun item => decide ((buildUpdates item).len ≠ 0))).map
          (fun item => (item.id, buildUpdates item)) := by
  unfold handleSnapStatus
  rw [foldl_sweepItem_calls]
  rfl

theorem success_ne_running : StatusSuccess ≠ StatusRunning := by decide

theorem success_ne_uploading : StatusSuccess ≠ StatusUploading := by decide

theorem ite_terminal (x marker : String) (hs : StatusSuccess ≠ marker)
    (h : x = StatusSuccess ∨ x = StatusFailed) :
    (if x = marker then StatusFailed else x) = x := by
  rcases h with h | h
  · rw [h, if_neg hs]
  · rw [h]; split <;> rfl

/-- C9: for a status item, the map `handleSnapStatus` builds holds a phase column
exactly when the item's field holds its transient marker (`Running` for panel,
panel_info, daemon_json, app_data, panel_data, backup_data and compress,
`Uploading` for upload), every value in it is `Failed` and every column is one of
the eight; `UpdateStatus` is called for the item exactly when the map is
non-empty, with that map; and, ids being distinct, the row of every record keeps
its id and keeps each phase field that was `Success` or `Failed`. -/
theorem C9_payload_only_transient (db : List Snapshot) (hid : (db.map Snapshot.id).Nodup)
    (item : Snapshot) :
    ((buildUpdates item).get "panel"
        = if item.panel = StatusRunning then some StatusFailed else none)
      ∧ ((buildUpdates item).get "panel_info"
        = if item.panelInfo = StatusRunning then some StatusFailed else none)
      ∧ ((buildUpdates item).get "daemon_json"
        = if item.daemonJson = StatusRunning then some StatusFailed else none)
      ∧ ((buildUpdates item).get "app_data"
        = if item.appData = StatusRunning then some StatusFailed else none)
      ∧ ((buildUpdates item).get "panel_data"
        = if item.panelData = StatusRunning then some StatusFailed else none)
      ∧ ((buildUpdates item).get "backup_data"
        = if item.backupData = StatusRunning then some StatusFailed else none)
      ∧ ((buildUpdates item).get "compress"
        = if item.compress = StatusRunning then some StatusFailed else none)
      ∧ ((buildUpdates item).get "upload"
        = if item.upload = StatusUploading then some StatusFailed else none)
      ∧ (∀ col v, (buildUpdates item).get col = some v →
          v = StatusFailed ∧ col ∈ ["panel", "panel_info", "daemon_json", "app_data",
            "panel_data", "backup_data", "compress", "upload"])
      ∧ (∀ st, (sweepItem st item).calls
          = if (buildUpdates item).len ≠ 0 then st.calls ++ [(item.id, buildUpdates item)]
            else st.calls)
      ∧ (handleSnapStatus db).calls
          = ((GetStatusList (bulkPass db)).filter
              (fun it => decide ((buildUpdates it).len ≠ 0))).map
              (fun it => (it.id, buildUpdates it))
      ∧ (∀ (i : Nat) (r : Snapshot), db[i]? = some r →
          ∃ r2 : Snapshot, (handleSnapStatus db).db[i]? = some r2
          ∧ r2.id = r.id
          ∧ (r.panel = StatusSuccess ∨ r.panel = StatusFailed → r2.panel = r.panel)
          ∧ (r.panelInfo = StatusSuccess ∨ r.panelInfo = StatusFailed →
              r2.panelInfo = r.panelInfo)
          ∧ (r.daemonJson = StatusSuccess ∨ r.daemonJson = StatusFailed →
              r2.daemonJson = r.daemonJson)
          ∧ (r.appData = StatusSuccess ∨ r.appData = StatusFailed → r2.appData = r.appData)
          ∧ (r.panelData = StatusSuccess ∨ r.panelData = StatusFailed →
              r2.panelData = r.panelData)
          ∧ (r.backupData = StatusSuccess ∨ r.backupData = StatusFailed →
              r2.backupData = r.backupData)
          ∧ (r.compress = StatusSuccess ∨ r.compress = StatusFailed → r2.compress = r.compress)
          ∧ (r.upload = StatusSuccess ∨ r.upload = StatusFailed → r2.upload = r.upload)) := by
  refine ⟨?_, ?_, ?_, ?_, ?_, ?_, ?_, ?_, ?_, ?_, handleSnapStatus_calls db, ?_⟩
  · rw [buildUpdates_get]; simp
  · rw [buildUpdates_get]; simp
  · rw [buildUpdates_get]; simp
  · rw [buildUpdates_get]; simp
  · rw [buildUpdates_get]; simp
  · rw [buildUpdates_get]; simp
  · rw [buildUpdates_get]; simp
  · rw [buildUpdates_get]; simp
  · intro col v h
    rw [buildUpdates_get] at h
    simp only [List.mem_cons, List.mem_singleton, List.not_mem_nil, or_false]
    split_ifs at h with h1 h2 h3 h4 h5 h6 h7 h8
    · exact ⟨(Option.some.inj h).symm, by simp [h1.2]⟩
    · exact ⟨(Option.some.inj h).symm, by simp [h2.2]⟩
    · exact ⟨(Option.some.inj h).symm, by simp [h3.2]⟩
    · exact ⟨(Option.some.inj h).symm, by simp [h4.2]⟩
    · exact ⟨(Option.some.inj h).symm, by simp [h5.2]⟩
    · exact ⟨(Option.some.inj h).symm, by simp [h6.2]⟩
    · exact ⟨(Option.some.inj h).symm, by simp [h7.2]⟩
    · exact ⟨(Option.some.inj h).symm, by simp [h8.2]⟩
  · intro st
    unfold sweepItem
    by_cases hlen : (buildUpdates item).len ≠ 0
    · rw [if_pos hlen, if_pos hlen]
    · rw [if_neg hlen, if_neg hlen]
  · intro i r hi
    refine ⟨sweepRecord r, ?_, ?_, ?_⟩
    · rw [handleSnapStatus_db db hid, List.getElem?_map, hi]; rfl
    · simp only [sweepRecord, updateRow, rowOnSaveData, rowStatus, rowRecover, rowRollback]
      split_ifs <;> rfl
    · obtain ⟨h1, h2, h3, h4, h5, h6, h7, h8⟩ := sweepRecord_phases r
      rw [h1, h2, h3, h4, h5, h6, h7, h8]
      exact ⟨ite_terminal _ _ success_ne_running, ite_terminal _ _ success_ne_running,
        ite_terminal _ _ success_ne_running, ite_terminal _ _ success_ne_running,
        ite_terminal _ _ success_ne_running, ite_terminal _ _ success_ne_running,
        ite_terminal _ _ success_ne_running, ite_terminal _ _ success_ne_uploading⟩

theorem C9_payload_only_transient_witness :
    ([(⟨1, "Success", "", "Success", "", "Success", "", "Success", "Running", "Success",
          "Failed", "Success", "Success", "Success", "Uploading"⟩ : Snapshot),
        ⟨2, "Success", "", "Success", "", "Success", "", "Success", "Success", "Success",
          "Failed", "Success", "Success", "Success", "Success"⟩].map Snapshot.id).Nodup
      ∧ (handleSnapStatus
          [⟨1, "Success", "", "Success", "", "Success", "", "Success", "Running", "Success",
            "Failed", "Success", "Success", "Success", "Uploading"⟩,
          ⟨2, "Success", "", "Success", "", "Success", "", "Success", "Success", "Success",
            "Failed", "Success", "Success", "Success", "Success"⟩]).calls
        = [(1, [("panel_info", "Failed"), ("upload", "Failed")])] :=
  ⟨by decide,
    (C9_payload_only_transient
      [⟨1, "Success", "", "Success", "", "Success", "", "Success", "Running", "Success",
          "Failed", "Success", "Success", "Success", "Uploading"⟩,
        ⟨2, "Success", "", "Success", "", "Success", "", "Success", "Success", "Success",
          "Failed", "Success", "Success", "Success", "Success"⟩] (by decide)
      ⟨1, "Success", "", "Success", "", "Success", "", "Success", "Running", "Success",
          "Failed", "Success", "Success", "Success", "Uploading"⟩).2.2.2.2.2.2.2.2.2.2.1.trans
      (by rfl)⟩

/-- C10 as stated fails: a record whose panel phase is `Waiting`, a transient
state, is left as it is by `handleSnapStatus`. -/
theorem C10_waiting_phase_survives :
    (handleSnapStatus
        [⟨1, "Success", "", "Success", "", "Success", "", "Waiting", "Success", "Success",
          "Success", "Success", "Success", "Success", "Success"⟩]).db
      = [⟨1, "Success", "", "Success", "", "Success", "", "Waiting", "Success", "Success",
          "Success", "Success", "Success", "Success", "Success"⟩]
      ∧ (⟨1, "Success", "", "Success", "", "Success", "", "Waiting", "Success", "Success",
          "Success", "Success", "Success", "Success", "Success"⟩ : Snapshot).panel
        = StatusWaiting :=
  ⟨by rfl, by rfl⟩

/-- C10, amended: after `handleSnapStatus` (ids distinct, all updates
succeeding) no record has `status`, `recover_status` or `rollback_status` equal
to `Waiting`, none has one of panel, panel_info, daemon_json, app_data,
panel_data, backup_data, compress equal to `Running`, and none has upload equal
to `Uploading`. -/
theorem C10_no_field_holds_its_marker (db : List Snapshot) (hid : (db.map Snapshot.id).Nodup)
    (r : Snapshot) (hr : r ∈ (handleSnapStatus db).db) :
    r.status ≠ StatusWaiting ∧ r.recoverStatus ≠ StatusWaiting
      ∧ r.rollbackStatus ≠ StatusWaiting
      ∧ r.panel ≠ StatusRunning ∧ r.panelInfo ≠ StatusRunning ∧ r.daemonJson ≠ StatusRunning
      ∧ r.appData ≠ StatusRunning ∧ r.panelData ≠ StatusRunning
      ∧ r.backupData ≠ StatusRunning ∧ r.compress ≠ StatusRunning
      ∧ r.upload ≠ StatusUploading := by
  rw [handleSnapStatus_db db hid, List.mem_map] at hr
  obtain ⟨r0, _, rfl⟩ := hr
  obtain ⟨s1, s2, s3⟩ := sweepRecord_status r0
  obtain ⟨h1, h2, h3, h4, h5, h6, h7, h8⟩ := sweepRecord_phases r0
  have key : ∀ (x marker : String), StatusFailed ≠ marker →
      (if x = marker then StatusFailed else x) ≠ marker := by
    intro x marker hm
    split
    · exact hm
    · assumption
  have fr : StatusFailed ≠ StatusRunning := by decide
  have fu : StatusFailed ≠ StatusUploading := by decide
  rw [h1, h2, h3, h4, h5, h6, h7, h8]
  exact ⟨s1, s2, s3, key _ _ fr, key _ _ fr, key _ _ fr, key _ _ fr, key _ _ fr, key _ _ fr,
    key _ _ fr, key _ _ fu⟩

theorem C10_no_field_holds_its_marker_witness :
    (⟨7, "Failed", "the task was interrupted due to the restart of the 1panel service",
        "Success", "", "Failed",
        "the task was interrupted due to the restart of the 1panel service",
        "Failed", "Success", "Success", "Success", "Success", "Success", "Success",
        "Failed"⟩ : Snapshot).status ≠ StatusWaiting :=
  (C10_no_field_holds_its_marker
    [⟨7, "Waiting", "", "Success", "", "Waiting", "", "Running", "Success", "Success",
      "Success", "Success", "Success", "Success", "Uploading"⟩] (by decide)
    ⟨7, "Failed", "the task was interrupted due to the restart of the 1panel service",
      "Success", "", "Failed",
      "the task was interrupted due to the restart of the 1panel service",
      "Failed", "Success", "Success", "Success", "Success", "Success", "Success",
      "Failed"⟩ (by decide)).1

/-! ## The bulk pass -/

theorem updateRow_buildUpdates_dimensions (r item : Snapshot) :
    (updateRow r (buildUpdates item)).dimensions = r.dimensions := by
  simp [Snapshot.dimensions, updateRow, buildUpdates_get]

theorem sweepItem_dimensions (st : SweepState) (item : Snapshot) :
    (sweepItem st item).db.map Snapshot.dimensions = st.db.map Snapshot.dimensions := by
  unfold sweepItem
  by_cases hlen : (buildUpdates item).len ≠ 0
  · rw [if_pos hlen]
    simp only [UpdateStatus, List.map_map]
    apply List.map_congr_left
    intro r _
    simp only [Function.comp]
    split
    · exact updateRow_buildUpdates_dimensions r item
    · rfl
  · rw [if_neg hlen]

theorem foldl_sweepItem_dimensions : ∀ (todo : List Snapshot) (st : SweepState),
    (todo.foldl sweepItem st).db.map Snapshot.dimensions = st.db.map Snapshot.dimensions := by
  intro todo
  induction todo with
  | nil => intro st; rfl
  | cons item rest ih =>
    intro st
    rw [List.foldl_cons, ih, sweepItem_dimensions]

theorem handleSnapStatus_dimensions (db : List Snapshot) :
    (handleSnapStatus db).db.map Snapshot.dimensions = (bulkPass db).map Snapshot.dimensions := by
  unfold handleSnapStatus
  exact foldl_sweepItem_dimensions _ _

theorem rowOnSaveData_status (r : Snapshot) :
    (rowOnSaveData r).status = (if r.status = "OnSaveData" then StatusSuccess else r.status) := by
  unfold rowOnSaveData
  split <;> rfl

/-- C11: the bulk pass of `handleSnapStatus` turns an overall status of
`OnSaveData` into `Success`, and turns each of `status`, `recover_status` and
`rollback_status` that equals `Waiting` into `Failed` with the interruption text
in its message field; each dimension depends on its own value only, and a
dimension holding another value keeps its status and message. The per-item
loop that follows leaves all of these as the bulk pass set them. -/
theorem C11_bulk_pass_dimensions (db : List Snapshot) (i : Nat) (r : Snapshot)
    (hr : db[i]? = some r) :
    ∃ r2 r3 : Snapshot, (bulkPass db)[i]? = some r2 ∧ (handleSnapStatus db).db[i]? = some r3
      ∧ r3.dimensions = r2.dimensions
      ∧ r2.id = r.id
      ∧ (r.status = "OnSaveData" → r2.status = StatusSuccess ∧ r2.message = r.message)
      ∧ (r.status = StatusWaiting → r2.status = StatusFailed
          ∧ r2.message = "the task was interrupted due to the restart of the 1panel service")
      ∧ (r.status ≠ "OnSaveData" → r.status ≠ StatusWaiting →
          r2.status = r.status ∧ r2.message = r.message)
      ∧ (r.recoverStatus = StatusWaiting → r2.recoverStatus = StatusFailed
          ∧ r2.recoverMessage
            = "the task was interrupted due to the restart of the 1panel service")
      ∧ (r.recoverStatus ≠ StatusWaiting →
          r2.recoverStatus = r.recoverStatus ∧ r2.recoverMessage = r.recoverMessage)
      ∧ (r.rollbackStatus = StatusWaiting → r2.rollbackStatus = StatusFailed
          ∧ r2.rollbackMessage
            = "the task was interrupted due to the restart of the 1panel service")
      ∧ (r.rollbackStatus ≠ StatusWaiting →
          r2.rollbackStatus = r.rollbackStatus ∧ r2.rollbackMessage = r.rollbackMessage) := by
  have hb : (bulkPass db)[i]? = some (rowRollback (rowRecover (rowStatus (rowOnSaveData r)))) := by
    rw [bulkPass_eq_map, List.getElem?_map, hr]; rfl
  have hd := congrArg (fun l => l[i]?) (handleSnapStatus_dimensions db)
  simp only [List.getElem?_map, hb, Option.map_some'] at hd
  cases h3 : (handleSnapStatus db).db[i]? with
  | none => rw [h3] at hd; cases hd
  | some r3 =>
    rw [h3, Option.map_some'] at hd
    refine ⟨_, r3, hb, rfl, Option.some.inj hd, ?_, ?_, ?_, ?_, ?_, ?_, ?_, ?_⟩
    · simp only [rowOnSaveData, rowStatus, rowRecover, rowRollback]
      split_ifs <;> rfl
    · intro h
      have hw : ¬ (StatusSuccess = StatusWaiting) := by decide
      simp only [rowOnSaveData, rowStatus, rowRecover, rowRollback, h, if_true, hw, if_false]
      split_ifs <;> exact ⟨rfl, rfl⟩
    · intro h
      have hw : ¬ (StatusWaiting = "OnSaveData") := by decide
      simp only [rowOnSaveData, rowStatus, rowRecover, rowRollback, h, if_true, hw, if_false]
      split_ifs <;> exact ⟨rfl, rfl⟩
    · intro h1 h2
      simp only [rowOnSaveData, rowStatus, rowRecover, rowRollback, h1, h2, if_false]
      split_ifs <;> exact ⟨rfl, rfl⟩
    · intro h
      simp only [rowOnSaveData, rowStatus, rowRecover, rowRollback]
      split_ifs <;> exact ⟨rfl, rfl⟩
    · intro h
      simp only [rowOnSaveData, rowStatus, rowRecover, rowRollback]
      split_ifs <;> exact ⟨rfl, rfl⟩
    · intro h
      simp only [rowOnSaveData, rowStatus, rowRecover, rowRollback]
      split_ifs <;> exact ⟨rfl, rfl⟩
    · intro h
      simp only [rowOnSaveData, rowStatus, rowRecover, rowRollback]
      split_ifs <;> exact ⟨rfl, rfl⟩

theorem C11_bulk_pass_dimensions_witness :
    ∃ r2 r3 : Snapshot,
      (bulkPass [⟨3, "Waiting", "", "Success", "done", "Waiting", "", "Running", "Success",
        "Success", "Success", "Success", "Success", "Success", "Success"⟩])[0]? = some r2
      ∧ (handleSnapStatus [⟨3, "Waiting", "", "Success", "done", "Waiting", "", "Running",
        "Success", "Success", "Success", "Success", "Success", "Success", "Success"⟩]).db[0]?
          = some r3
      ∧ r3.dimensions = r2.dimensions
      ∧ r2.status = StatusFailed
      ∧ r2.message = "the task was interrupted due to the restart of the 1panel service"
      ∧ r2.recoverStatus = "Success" ∧ r2.recoverMessage = "done" := by
  obtain ⟨r2, r3, h2, h3, hd, _, _, hw, _, _, hrec, _, _⟩ :=
    C11_bulk_pass_dimensions
      [⟨3, "Waiting", "", "Success", "done", "Waiting", "", "Running", "Success",
        "Success", "Success", "Success", "Success", "Success", "Success"⟩] 0
      ⟨3, "Waiting", "", "Success", "done", "Waiting", "", "Running", "Success",
        "Success", "Success", "Success", "Success", "Success", "Success"⟩ (by rfl)
  exact ⟨r2, r3, h2, h3, hd, (hw (by rfl)).1, (hw (by rfl)).2, (hrec (by decide)).1,
    (hrec (by decide)).2⟩

/-! ## Running the sweep again -/

theorem sweepRecord_settled (r : Snapshot) : (sweepRecord r).settled := by
  obtain ⟨s1, s2, s3⟩ := sweepRecord_status r
  obtain ⟨h1, h2, h3, h4, h5, h6, h7, h8⟩ := sweepRecord_phases r
  have key : ∀ (x marker : String), StatusFailed ≠ marker →
      (if x = marker then StatusFailed else x) ≠ marker := by
    intro x marker hm
    split
    · exact hm
    · assumption
  have fr : StatusFailed ≠ StatusRunning := by decide
  have fu : StatusFailed ≠ StatusUploading := by decide
  have s0 : (sweepRecord r).status ≠ "OnSaveData" := by
    have e1 : (sweepRecord r).status
        = (rowRollback (rowRecover (rowStatus (rowOnSaveData r)))).status := by
      simp [sweepRecord, updateRow, buildUpdates_get]
    rw [e1, (rowRollback_fields _).2.1, (rowRecover_fields _).2]
    have hs : StatusSuccess ≠ "OnSaveData" := by decide
    have hf : StatusFailed ≠ "OnSaveData" := by decide
    have e2 : (rowStatus (rowOnSaveData r)).status
        = (if (rowOnSaveData r).status = StatusWaiting then StatusFailed
            else (rowOnSaveData r).status) := by
      unfold rowStatus
      split <;> rfl
    rw [e2, rowOnSaveData_status]
    split_ifs <;> first | exact hf | exact hs | assumption
  unfold Snapshot.settled
  rw [h1, h2, h3, h4, h5, h6, h7, h8]
  exact ⟨s0, s1, s2, s3, key _ _ fr, key _ _ fr, key _ _ fr, key _ _ fr, key _ _ fr,
    key _ _ fr, key _ _ fr, key _ _ fu⟩

theorem settled_rows (r : Snapshot) (h : r.settled) :
    rowOnSaveData r = r ∧ rowStatus r = r ∧ rowRecover r = r ∧ rowRollback r = r
      ∧ buildUpdates r = [] := by
  obtain ⟨h0, h1, h2, h3, p1, p2, p3, p4, p5, p6, p7, p8⟩ := h
  refine ⟨?_, ?_, ?_, ?_, ?_⟩
  · simp only [rowOnSaveData, h0, if_false]
  · simp only [rowStatus, h1, if_false]
  · simp only [rowRecover, h2, if_false]
  · simp only [rowRollback, h3, if_false]
  · simp only [buildUpdates, p1, p2, p3, p4, p5, p6, p7, p8, if_false]

theorem map_settled (f : Snapshot → Snapshot) (db : List Snapshot)
    (hf : ∀ r ∈ db, f r = r) : db.map f = db := by
  conv_rhs => rw [← List.map_id db]
  exact List.map_congr_left (fun r hr => by simp [hf r hr])

theorem bulkPass_settled (db : List Snapshot) (h : ∀ r ∈ db, r.settled) : bulkPass db = db := by
  unfold bulkPass
  simp only
  rw [map_settled rowOnSaveData db (fun r hr => (settled_rows r (h r hr)).1),
    map_settled rowStatus db (fun r hr => (settled_rows r (h r hr)).2.1),
    map_settled rowRecover db (fun r hr => (settled_rows r (h r hr)).2.2.1),
    map_settled rowRollback db (fun r hr => (settled_rows r (h r hr)).2.2.2.1)]

theorem bulkMatched_settled (db : List Snapshot) (h : ∀ r ∈ db, r.settled) :
    bulkMatched db = [0, 0, 0, 0] := by
  unfold bulkMatched
  simp only
  rw [map_settled rowOnSaveData db (fun r hr => (settled_rows r (h r hr)).1),
    map_settled rowStatus db (fun r hr => (settled_rows r (h r hr)).2.1),
    map_settled rowRecover db (fun r hr => (settled_rows r (h r hr)).2.2.1)]
  have e1 : db.filter (fun r => decide (r.status = "OnSaveData")) = [] :=
    List.filter_eq_nil_iff.mpr (fun r hr => by simpa using (h r hr).1)
  have e2 : db.filter (fun r => decide (r.status = StatusWaiting)) = [] :=
    List.filter_eq_nil_iff.mpr (fun r hr => by simpa using (h r hr).2.1)
  have e3 : db.filter (fun r => decide (r.recoverStatus = StatusWaiting)) = [] :=
    List.filter_eq_nil_iff.mpr (fun r hr => by simpa using (h r hr).2.2.1)
  have e4 : db.filter (fun r => decide (r.rollbackStatus = StatusWaiting)) = [] :=
    List.filter_eq_nil_iff.mpr (fun r hr => by simpa using (h r hr).2.2.2.1)
  rw [e1, e2, e3, e4]
  rfl

theorem sweepRecord_id (r : Snapshot) : (sweepRecord r).id = r.id := by
  simp only [sweepRecord, updateRow, rowOnSaveData, rowStatus, rowRecover, rowRollback]
  split_ifs <;> rfl

/-- C12: with distinct ids and all updates succeeding, running
`handleSnapStatus` a second time leaves the records the first run left, and the
second run updates nothing: each of its four bulk updates matches no row and it
calls `UpdateStatus` for no record. -/
theorem C12_second_run_is_noop (db : List Snapshot) (hid : (db.map Snapshot.id).Nodup) :
    (handleSnapStatus (handleSnapStatus db).db).db = (handleSnapStatus db).db
      ∧ bulkMatched (handleSnapStatus db).db = [0, 0, 0, 0]
      ∧ (handleSnapStatus (handleSnapStatus db).db).calls = [] := by
  have h1 := handleSnapStatus_db db hid
  have hset : ∀ r ∈ (handleSnapStatus db).db, r.settled := by
    intro r hr
    rw [h1, List.mem_map] at hr
    obtain ⟨r0, _, rfl⟩ := hr
    exact sweepRecord_settled r0
  have hid2 : ((handleSnapStatus db).db.map Snapshot.id).Nodup := by
    rw [h1, List.map_map]
    have : (Snapshot.id ∘ sweepRecord) = Snapshot.id := funext sweepRecord_id
    rw [this]
    exact hid
  refine ⟨?_, bulkMatched_settled _ hset, ?_⟩
  · rw [handleSnapStatus_db _ hid2]
    apply map_settled
    intro r hr
    have hs := settled_rows r (hset r hr)
    unfold sweepRecord
    simp only [hs.1, hs.2.1, hs.2.2.1, hs.2.2.2.1, hs.2.2.2.2, updateRow_of_nil]
  · rw [handleSnapStatus_calls, GetStatusList, bulkPass_settled _ hset]
    have : (handleSnapStatus db).db.filter
        (fun item => decide ((buildUpdates item).len ≠ 0)) = [] :=
      List.filter_eq_nil_iff.mpr (fun r hr => by
        simp [(settled_rows r (hset r hr)).2.2.2.2, GoMap.len])
    rw [this]
    rfl

theorem C12_second_run_is_noop_witness :
    ([(⟨1, "OnSaveData", "", "Waiting", "", "Success", "", "Running", "Success", "Success",
          "Success", "Success", "Success", "Success", "Uploading"⟩ : Snapshot),
        ⟨2, "Waiting", "", "Success", "", "Waiting", "", "Success", "Success", "Success",
          "Success", "Success", "Success", "Running", "Success"⟩].map Snapshot.id).Nodup
      ∧ bulkMatched (handleSnapStatus
          [⟨1, "OnSaveData", "", "Waiting", "", "Success", "", "Running", "Success", "Success",
            "Success", "Success", "Success", "Success", "Uploading"⟩,
          ⟨2, "Waiting", "", "Success", "", "Waiting", "", "Success", "Success", "Success",
            "Success", "Success", "Success", "Running", "Success"⟩]).db = [0, 0, 0, 0] :=
  ⟨by decide,
    (C12_second_run_is_noop
      [⟨1, "OnSaveData", "", "Waiting", "", "Success", "", "Running", "Success", "Success",
          "Success", "Success", "Success", "Success", "Uploading"⟩,
        ⟨2, "Waiting", "", "Success", "", "Waiting", "", "Success", "Success", "Success",
          "Success", "Success", "Success", "Running", "Success"⟩] (by decide)).2.1⟩

/-! ## `handleCronjobStatus` -/

/-- C13: `handleCronjobStatus` sets `status` to `Failed` and `message` to the
interruption text on exactly the records whose status is `Waiting`, and leaves
every other record (`Success`, `Failed`, and also `Running`) as it was;
afterwards no record has status `Waiting`. -/
theorem C13_cronjob_sweep (db : List JobRecord) (i : Nat) (r : JobRecord)
    (hr : db[i]? = some r) :
    ∃ r2 : JobRecord, (handleCronjobStatus db)[i]? = some r2
      ∧ r2.id = r.id
      ∧ (r.status = StatusWaiting → r2.status = StatusFailed
          ∧ r2.message = "the task was interrupted due to the restart of the 1panel service")
      ∧ (r.status ≠ StatusWaiting → r2 = r)
      ∧ (r.status = StatusRunning → r2 = r)
      ∧ (handleCronjobStatus db).length = db.length
      ∧ ∀ x ∈ handleCronjobStatus db, x.status ≠ StatusWaiting := by
  have hw : ∀ y : JobRecord, y.status ≠ StatusWaiting →
      (if y.status = StatusWaiting then
        ({ y with
          status := StatusFailed
          message := "the task was interrupted due to the restart of the 1panel service" } :
          JobRecord)
      else y) = y := fun y hy => if_neg hy
  refine ⟨_, by rw [handleCronjobStatus, List.getElem?_map, hr]; rfl, ?_, ?_, ?_, ?_, ?_, ?_⟩
  · simp only []
    split <;> rfl
  · intro h
    simp only [h, if_true, and_self]
  · intro h
    exact hw r h
  · intro h
    have hne : r.status ≠ StatusWaiting := by rw [h]; decide
    exact hw r hne
  · simp [handleCronjobStatus]
  · intro x hx
    rw [handleCronjobStatus, List.mem_map] at hx
    obtain ⟨y, _, rfl⟩ := hx
    by_cases hy : y.status = StatusWaiting
    · rw [if_pos hy]
      exact failed_ne_waiting
    · rw [if_neg hy]
      exact hy

theorem C13_cronjob_sweep_witness :
    ∃ r2 : JobRecord,
      (handleCronjobStatus [⟨1, "Running", "started"⟩, ⟨2, "Waiting", ""⟩])[1]? = some r2
      ∧ r2.status = StatusFailed
      ∧ r2.message = "the task was interrupted due to the restart of the 1panel service"
      ∧ ∀ x ∈ handleCronjobStatus [⟨1, "Running", "started"⟩, ⟨2, "Waiting", ""⟩],
          x.status ≠ StatusWaiting := by
  obtain ⟨r2, h1, _, hw, _, _, _, hall⟩ :=
    C13_cronjob_sweep [⟨1, "Running", "started"⟩, ⟨2, "Waiting", ""⟩] 1 ⟨2, "Waiting", ""⟩
      (by rfl)
  exact ⟨r2, h1, (hw (by rfl)).1, (hw (by rfl)).2, hall⟩

/-! ## `Init` -/

theorem Init_steps {σ : Type} (repo : SettingRepo σ) (decode : String → String)
    (st : InitState σ) :
    (Init repo decode st).steps
      = st.steps ++
        ((if (repo.get st.settings "OneDriveID").2 ≠ none then
            [InitStep.logError "OneDriveID"] else []) ++
        ((if (repo.get st.settings "OneDriveSc").2 ≠ none then
            [InitStep.logError "OneDriveSc"] else []) ++
        ((if (repo.get st.settings "SystemStatus").2 ≠ none then
            [InitStep.create "SystemStatus" "Free"
              (repo.create st.settings "SystemStatus" "Free").2] else []) ++
        (InitStep.update "SystemStatus" "Free"
            (repo.update (storeBeforeUpdate repo st.settings) "SystemStatus" "Free").2 ::
          (if (repo.update (storeBeforeUpdate repo st.settings) "SystemStatus" "Free").2 ≠ none
            then [InitStep.fatal]
            else [InitStep.handleCronjobStatus, InitStep.handleSnapStatus,
              InitStep.loadLocalDir, InitStep.initDir]))))) := by
  unfold Init
  simp only []
  split_ifs <;> simp

theorem Init_update_failed {σ : Type} (repo : SettingRepo σ) (decode : String → String)
    (st : InitState σ)
    (h : (repo.update (storeBeforeUpdate repo st.settings) "SystemStatus" "Free").2 ≠ none) :
    (Init repo decode st).exited = true ∧ (Init repo decode st).jobs = st.jobs
      ∧ (Init repo decode st).snapshots = st.snapshots := by
  unfold Init
  simp only []
  rw [if_pos h]
  exact ⟨rfl, rfl, rfl⟩

theorem Init_update_ok {σ : Type} (repo : SettingRepo σ) (decode : String → String)
    (st : InitState σ)
    (h : (repo.update (storeBeforeUpdate repo st.settings) "SystemStatus" "Free").2 = none) :
    (Init repo decode st).exited = st.exited
      ∧ (Init repo decode st).jobs = handleCronjobStatus st.jobs
      ∧ (Init repo decode st).snapshots = (handleSnapStatus st.snapshots).db
      ∧ (Init repo decode st).settings
        = (repo.update (storeBeforeUpdate repo st.settings) "SystemStatus" "Free").1 := by
  unfold Init
  simp only []
  rw [if_neg (not_not.mpr h)]
  exact ⟨rfl, rfl, rfl, rfl⟩

/-- C14: in `Init`, when the `SystemStatus` key cannot be read it is first
created with value `Free`, and `SystemStatus` is then updated to `Free` on the
store the creation left; if that update fails `Init` ends in the fatal exit
and runs neither sweeper nor the directory steps; if it succeeds `Init` runs
`handleCronjobStatus`, `handleSnapStatus`, `loadLocalDir` and `initDir`, also
when loading a credential failed (which is only logged); so whenever `Init`
reaches `handleCronjobStatus` the update of `SystemStatus` to `Free` returned no
error. -/
theorem C14_init_system_status {σ : Type} (repo : SettingRepo σ) (decode : String → String)
    (st : InitState σ) :
    ∃ done : List InitStep, (Init repo decode st).steps = st.steps ++ done
      ∧ ((repo.get st.settings "SystemStatus").2 ≠ none →
          storeBeforeUpdate repo st.settings = (repo.create st.settings "SystemStatus" "Free").1
          ∧ ∃ pre post, done = pre ++
              [InitStep.create "SystemStatus" "Free"
                  (repo.create st.settings "SystemStatus" "Free").2,
                InitStep.update "SystemStatus" "Free"
                  (repo.update (storeBeforeUpdate repo st.settings) "SystemStatus" "Free").2]
              ++ post)
      ∧ InitStep.update "SystemStatus" "Free"
          (repo.update (storeBeforeUpdate repo st.settings) "SystemStatus" "Free").2 ∈ done
      ∧ ((repo.update (storeBeforeUpdate repo st.settings) "SystemStatus" "Free").2 ≠ none →
          (Init repo decode st).exited = true
          ∧ done.getLast? = some InitStep.fatal
          ∧ InitStep.handleCronjobStatus ∉ done ∧ InitStep.handleSnapStatus ∉ done
          ∧ InitStep.loadLocalDir ∉ done ∧ InitStep.initDir ∉ done
          ∧ (Init repo decode st).jobs = st.jobs
          ∧ (Init repo decode st).snapshots = st.snapshots)
      ∧ ((repo.update (storeBeforeUpdate repo st.settings) "SystemStatus" "Free").2 = none →
          (Init repo decode st).exited = st.exited
          ∧ InitStep.fatal ∉ done
          ∧ (∃ pre, done = pre ++ [InitStep.handleCronjobStatus, InitStep.handleSnapStatus,
              InitStep.loadLocalDir, InitStep.initDir])
          ∧ (Init repo decode st).jobs = handleCronjobStatus st.jobs
          ∧ (Init repo decode st).snapshots = (handleSnapStatus st.snapshots).db)
      ∧ ((repo.get st.settings "OneDriveID").2 ≠ none → InitStep.logError "OneDriveID" ∈ done)
      ∧ ((repo.get st.settings "OneDriveSc").2 ≠ none → InitStep.logError "OneDriveSc" ∈ done)
      ∧ (InitStep.handleCronjobStatus ∈ done →
          (repo.update (storeBeforeUpdate repo st.settings) "SystemStatus" "Free").2 = none
          ∧ (Init repo decode st).settings
            = (repo.update (storeBeforeUpdate repo st.settings) "SystemStatus" "Free").1) := by
  refine ⟨_, Init_steps repo decode st, ?_, ?_, ?_, ?_, ?_, ?_, ?_⟩
  · intro h
    refine ⟨by rw [storeBeforeUpdate, if_pos h],
      (if (repo.get st.settings "OneDriveID").2 ≠ none then
          [InitStep.logError "OneDriveID"] else []) ++
        (if (repo.get st.settings "OneDriveSc").2 ≠ none then
          [InitStep.logError "OneDriveSc"] else []),
      (if (repo.update (storeBeforeUpdate repo st.settings) "SystemStatus" "Free").2 ≠ none
        then [InitStep.fatal]
        else [InitStep.handleCronjobStatus, InitStep.handleSnapStatus,
          InitStep.loadLocalDir, InitStep.initDir]), ?_⟩
    rw [if_pos h]
    simp only [List.append_assoc, List.singleton_append, List.cons_append, List.nil_append]
  · simp
  · intro h
    obtain ⟨h1, h2, h3⟩ := Init_update_failed repo decode st h
    refine ⟨h1, ?_, ?_, ?_, ?_, ?_, h2, h3⟩
    · rw [if_pos h]
      simp [List.getLast?_append, List.getLast?_cons_cons]
    · rw [if_pos h]; split_ifs <;> simp
    · rw [if_pos h]; split_ifs <;> simp
    · rw [if_pos h]; split_ifs <;> simp
    · rw [if_pos h]; split_ifs <;> simp
  · intro h
    obtain ⟨h1, h2, h3, _⟩ := Init_update_ok repo decode st h
    refine ⟨h1, ?_, ?_, h2, h3⟩
    · rw [if_neg (not_not.mpr h)]; split_ifs <;> simp
    · rw [if_neg (not_not.mpr h)]
      refine ⟨(if (repo.get st.settings "OneDriveID").2 ≠ none then
          [InitStep.logError "OneDriveID"] else []) ++
        ((if (repo.get st.settings "OneDriveSc").2 ≠ none then
          [InitStep.logError "OneDriveSc"] else []) ++
        ((if (repo.get st.settings "SystemStatus").2 ≠ none then
            [InitStep.create "SystemStatus" "Free"
              (repo.create st.settings "SystemStatus" "Free").2] else []) ++
        [InitStep.update "SystemStatus" "Free"
            (repo.update (storeBeforeUpdate repo st.settings) "SystemStatus" "Free").2])), ?_⟩
      simp only [List.append_assoc, List.singleton_append, List.cons_append, List.nil_append]
  · intro h
    rw [if_pos h]; simp
  · intro h
    rw [if_pos h]; simp
  · intro hmem
    by_cases h : (repo.update (storeBeforeUpdate repo st.settings) "SystemStatus" "Free").2 = none
    · exact ⟨h, (Init_update_ok repo decode st h).2.2.2⟩
    · exfalso
      rw [if_pos h] at hmem
      revert hmem
      split_ifs <;> simp

/-! ## `handleRegistries` on a list that holds the host twice -/

/-- C15 fails on the code: on the list `["a.com", "a.com"]` the removal loop of
`handleRegistries` panics with `slice bounds out of range [2:1]`, in delete mode
and in update mode, and on `["a.com", "a.com", "b.com"]` it finishes and leaves
`["a.com", "b.com"]`, which still holds the host. -/
theorem C15_duplicate_host_breaks_removal :
    removeHost "a.com" [.str "a.com", .str "a.com"] = .error (.sliceBounds 2 1)
      ∧ handleRegistries (some [("insecure-registries", .arr [.str "a.com", .str "a.com"])])
          "" "a.com" "delete" = .error (.sliceBounds 2 1)
      ∧ handleRegistries (some [("insecure-registries", .arr [.str "a.com", .str "a.com"])])
          "b.com" "a.com" "update" = .error (.sliceBounds 2 1)
      ∧ removeHost "a.com" [.str "a.com", .str "a.com", .str "b.com"]
          = .ok [.str "a.com", .str "b.com"]
      ∧ handleRegistries
          (some [("insecure-registries", .arr [.str "a.com", .str "a.com", .str "b.com"])])
          "" "a.com" "delete"
          = .ok (some [("insecure-registries", .arr [.str "a.com", .str "b.com"])]) :=
  ⟨by rfl, by rfl, by rfl, by rfl, by rfl⟩

end OnePanel
